import Mathlib

/-!
Verification of the Listing Ingestion & Seller Discovery/Ranking Engine
(backend/app/repositories/listings.py, backend/app/repositories/sellers.py,
backend/app/utils/geolocation.py).

Modelling conventions:
* Python floats are modelled as exact rationals; `float("inf")`, which the
  seller-merge step can produce, is modelled by the `PFloat` type below.
* Python `datetime` values (always UTC in the source) are modelled by their
  epoch timestamp as an `Int`.
* JSON-shaped dynamic values (JSONB columns, decoded documents, listing
  dicts) are modelled by the `PVal` type; Python `dict.get` returning
  `None` for a missing key is modelled by `pget` returning `PVal.vnone`.
* `list.sort(key=..., reverse=...)` is Python's stable sort; it is modelled
  by the stable insertion sort `pySort` below.
-/

namespace Concierge

/-- Model of a Python float that may be `float("inf")` (produced by the
seller merge step); finite values are exact rationals. -/
inductive PFloat where
  | fin (q : ℚ)
  | inf
deriving DecidableEq, Repr

namespace PFloat

/-- `min` on Python floats (`inf` is the absorbing top element). -/
def min : PFloat → PFloat → PFloat
  | fin a, fin b => fin (Min.min a b)
  | fin a, inf => fin a
  | inf, b => b

/-- `<` on Python floats. -/
def lt : PFloat → PFloat → Bool
  | fin a, fin b => a < b
  | fin _, inf => true
  | inf, _ => false

/-- Subtraction on Python floats (`inf - x = inf` for finite `x`). -/
def sub : PFloat → ℚ → PFloat
  | fin a, b => fin (a - b)
  | inf, _ => inf

end PFloat

/-- Model of a Python/JSON value as read from JSONB columns and decoded
documents.  `vnone` is Python `None`; `vdt` is a `datetime` (epoch seconds,
UTC) as stored in parsed listing dicts. -/
inductive PVal where
  | vnone
  | vstr (s : String)
  | vnum (q : ℚ)
  | vbool (b : Bool)
  | vdt (t : Int)
  | vlist (xs : List PVal)
  | vdict (entries : List (String × PVal))

/-- Structural equality on modelled values (Python `==`). -/
def PVal.beq : PVal → PVal → Bool
  | .vnone, .vnone => true
  | .vstr a, .vstr b => a = b
  | .vnum a, .vnum b => a = b
  | .vbool a, .vbool b => a = b
  | .vdt a, .vdt b => a = b
  | .vlist xs, .vlist ys => beqList xs ys
  | .vdict xs, .vdict ys => beqEntries xs ys
  | _, _ => false
where
  beqList : List PVal → List PVal → Bool
    | [], [] => true
    | x :: xs, y :: ys => PVal.beq x y && beqList xs ys
    | _, _ => false
  beqEntries : List (String × PVal) → List (String × PVal) → Bool
    | [], [] => true
    | x :: xs, y :: ys => (x.1 = y.1 && PVal.beq x.2 y.2) && beqEntries xs ys
    | _, _ => false

instance : BEq PVal := ⟨PVal.beq⟩

/-- A Python dict with string keys (e.g. a parsed listing payload). -/
abbrev PyDict := List (String × PVal)

/-- `d.get(k)`: first binding of `k`, `None` when absent. -/
def pget (d : PyDict) (k : String) : PVal :=
  match d.find? (fun kv => kv.1 = k) with
  | some kv => kv.2
  | none => .vnone

/-- `k in d`: key membership (present even when the stored value is None). -/
def phasKey (d : PyDict) (k : String) : Bool :=
  d.any (fun kv => kv.1 = k)

/-- Python truthiness of a modelled value. -/
def truthy : PVal → Bool
  | .vnone => false
  | .vstr s => !(s = "")
  | .vnum q => !(q = 0)
  | .vbool b => b
  | .vdt _ => true
  | .vlist xs => !xs.isEmpty
  | .vdict d => !d.isEmpty

/-- Simplified model of Python `str()`.  The source only ever applies it to
values that are already strings (tag components and category names); the
renderings of the other constructors are placeholders. -/
def pyStr : PVal → String
  | .vnone => "None"
  | .vstr s => s
  | .vnum q => toString q
  | .vbool b => if b then "True" else "False"
  | .vdt t => toString t
  | .vlist _ => "[...]"
  | .vdict _ => "\x7b...\x7d"

/-! ### Python's stable sort -/

/-- Insert `x` into `ys`, placing it before the first element `y` with
`goesBefore x y`; on ties `x` stays after existing elements, which is
exactly the stability guarantee of Python's `list.sort`. -/
def pyInsertB (goesBefore : α → α → Bool) (x : α) : List α → List α
  | [] => [x]
  | y :: ys => if goesBefore x y then x :: y :: ys else y :: pyInsertB goesBefore x ys

/-- Stable sort (model of Python `list.sort`): for ascending order pass
`goesBefore x y := key x < key y`, for `reverse=True` pass
`goesBefore x y := key y < key x`. -/
def pySort (goesBefore : α → α → Bool) (xs : List α) : List α :=
  xs.foldl (fun acc x => pyInsertB goesBefore x acc) []

/-! ### Tokenizer and listing match score (listings.py) -/

/-- ASCII alphanumeric test, the character class of `[A-Za-z0-9]+`. -/
def isAlnumAscii (c : Char) : Bool :=
  ('a' ≤ c && c ≤ 'z') || ('A' ≤ c && c ≤ 'Z') || ('0' ≤ c && c ≤ '9')

/-- ASCII lowercase of one character (model of Python `str.lower`, which the
source only applies to ASCII data). -/
def asciiLower (c : Char) : Char :=
  if 'A' ≤ c && c ≤ 'Z' then Char.ofNat (c.toNat + 32) else c

/-- ASCII lowercase of a string. -/
def strLower (s : String) : String := String.mk (s.toList.map asciiLower)

/-- Maximal `[A-Za-z0-9]+` runs of a character list (`re.findall`). -/
def alnumRunsAux : List Char → List Char → List String
  | [], acc => if acc.isEmpty then [] else [String.mk acc.reverse]
  | c :: cs, acc =>
    if isAlnumAscii c then alnumRunsAux cs (c :: acc)
    else if acc.isEmpty then alnumRunsAux cs []
    else String.mk acc.reverse :: alnumRunsAux cs []

/-- `re.findall(r"[A-Za-z0-9]+", s)`. -/
def alnumRuns (s : String) : List String := alnumRunsAux s.toList []

/-- `_tokenize_query` (listings.py): lowercase alphanumeric runs of length
`> 1`; a falsy query (absent or empty) yields no tokens. -/
def _tokenize_query (query : Option String) : List String :=
  match query with
  | none => []
  | some q =>
    if q = "" then []
    else (alnumRuns (strLower q)).filter (fun token => decide (token.length > 1))

/-- `startsWithL needle hay`: `needle` is a prefix of `hay`. -/
def startsWithL : List Char → List Char → Bool
  | [], _ => true
  | _ :: _, [] => false
  | a :: as, b :: bs => a = b && startsWithL as bs

/-- `containsL needle hay`: `needle` occurs contiguously in `hay`
(Python's `needle in hay` on strings). -/
def containsL (needle : List Char) : List Char → Bool
  | [] => startsWithL needle []
  | b :: bs => startsWithL needle (b :: bs) || containsL needle bs

/-- Python substring test `needle in hay`. -/
def strHasSub (hay needle : String) : Bool := containsL needle.toList hay.toList

/-- `_listing_match_score` (listings.py): number of query tokens occurring
as substrings of the lowercased concatenation of the listing's text
fields, tags and string-valued price fields. -/
def _listing_match_score (listing : PyDict) (tokens : List String) : Nat :=
  if tokens.isEmpty then 0
  else
    let base := ["title", "summary", "content", "location", "status", "identifier"].filterMap
      (fun k => match pget listing k with
        | .vstr s => some (strLower s)
        | _ => none)
    let tagParts := match pget listing "tags" with
      | .vlist xs => xs.map (fun tag => strLower (pyStr tag))
      | _ => []
    let priceParts := match pget listing "price" with
      | .vdict entries => entries.filterMap
          (fun kv => match kv.2 with
            | .vstr s => some (strLower s)
            | _ => none)
      | _ => []
    let haystack := " ".intercalate (base ++ tagParts ++ priceParts)
    tokens.countP (fun token => strHasSub haystack token)

/-! ### `filter_and_rank_listings` (listings.py) -/

/-- `published_at` of a listing dict used as a sort key: the stored
datetime, or epoch zero when absent or not a datetime. -/
def pubOf (l : PyDict) : Int :=
  match pget l "published_at" with
  | .vdt t => t
  | _ => 0

/-- Strict `<` on Python tuples `(score, published_at)`. -/
def lexLt (a b : Nat × Int) : Bool :=
  a.1 < b.1 || (a.1 = b.1 && a.2 < b.2)

/-- The key of a scored entry `(score, published_at, listing)`. -/
def entryKey (e : Nat × Int × PyDict) : Nat × Int := (e.1, e.2.1)

/-- `isinstance(listing_id, str) and listing_id in seen_ids`. -/
def idDup (idv : PVal) (seen : List String) : Bool :=
  match idv with
  | .vstr i => decide (i ∈ seen)
  | _ => false

/-- The `seen_ids` set after one loop iteration (only string ids are added). -/
def seenAfter (idv : PVal) (seen : List String) : List String :=
  match idv with
  | .vstr i => i :: seen
  | _ => seen

/-- The main scoring loop of `filter_and_rank_listings`: first-occurrence
dedup by string id, scoring, and (when tokens are present) dropping
zero-score listings. -/
def frlScoreLoop (tokens : List String) : List String → List PyDict → List (Nat × Int × PyDict)
  | _, [] => []
  | seen, l :: ls =>
    if idDup (pget l "id") seen then frlScoreLoop tokens seen ls
    else
      let seen' := seenAfter (pget l "id") seen
      let score := _listing_match_score l tokens
      if !tokens.isEmpty && score = 0 then frlScoreLoop tokens seen' ls
      else (score, pubOf l, l) :: frlScoreLoop tokens seen' ls

/-- The recency fallback loop of `filter_and_rank_listings`: dedup again,
score every listing as 0. -/
def frlFallbackLoop : List String → List PyDict → List (Nat × Int × PyDict)
  | _, [] => []
  | seen, l :: ls =>
    if idDup (pget l "id") seen then frlFallbackLoop seen ls
    else (0, pubOf l, l) :: frlFallbackLoop (seenAfter (pget l "id") seen) ls

/-- `filter_and_rank_listings` (listings.py): dedup by id, score against the
query tokens, drop zero scores when tokens exist, fall back to all listings
at score 0 when nothing matched, stable-sort by `(score, published_at)`
descending, truncate to `max_items`, and return the best score. -/
def filter_and_rank_listings (listings : List PyDict) (query : Option String)
    (max_items : Int) : List PyDict × ℚ :=
  if listings.isEmpty then ([], 0)
  else if max_items ≤ 0 then ([], 0)
  else
    let tokens := _tokenize_query query
    let scored := frlScoreLoop tokens [] listings
    let scored := if scored.isEmpty then frlFallbackLoop [] listings else scored
    let sorted := pySort (fun x y => lexLt (entryKey y) (entryKey x)) scored
    let sliceSize : Int := if max_items ≠ 0 then max_items else (sorted.length : Int)
    let trimmed := (sorted.take sliceSize.toNat).map (fun e => e.2.2)
    let bestScore : ℚ := match sorted with
      | [] => 0
      | e :: _ => (e.1 : ℚ)
    (trimmed, bestScore)

/-! ### Spec-side definitions for the ranking claims -/

/-- Spec-side dedup by listing id, first occurrence wins (listings without a
string id are kept); mirrors the dedup discipline of both loops above. -/
def dedupById : List String → List PyDict → List PyDict
  | _, [] => []
  | seen, l :: ls =>
    if idDup (pget l "id") seen then dedupById seen ls
    else l :: dedupById (seenAfter (pget l "id") seen) ls

/-- Spec-side recency sort: stable sort by `published_at` descending,
missing timestamps treated as epoch zero. -/
def recencySortDesc (ls : List PyDict) : List PyDict :=
  pySort (fun x y => decide (pubOf y < pubOf x)) ls

/-- Spec-side best score: the maximum match score over a list of listings. -/
def maxMatchScore (tokens : List String) (ls : List PyDict) : Nat :=
  (ls.map (fun l => _listing_match_score l tokens)).foldr Nat.max 0

theorem maxMatchScore_def (tokens : List String) (ls : List PyDict) :
    maxMatchScore tokens ls
      = (ls.map (fun l => _listing_match_score l tokens)).foldr Nat.max 0 := rfl

/-! ### Lemmas about the stable sort -/

theorem mem_pyInsertB {α : Type _} (gb : α → α → Bool) (x a : α) (ys : List α) :
    a ∈ pyInsertB gb x ys ↔ a = x ∨ a ∈ ys := by
  induction ys with
  | nil => simp [pyInsertB]
  | cons y ys ih =>
    by_cases h : gb x y = true
    · simp [pyInsertB, h]
    · simp only [pyInsertB, if_neg h, List.mem_cons, ih]
      tauto

theorem pyInsertB_perm {α : Type _} (gb : α → α → Bool) (x : α) (ys : List α) :
    (pyInsertB gb x ys).Perm (x :: ys) := by
  induction ys with
  | nil => simp [pyInsertB]
  | cons y ys ih =>
    by_cases h : gb x y = true
    · simp [pyInsertB, h]
    · simp only [pyInsertB, if_neg h]
      exact ((ih.cons y).trans (List.Perm.swap x y ys))

theorem pySortAux_perm {α : Type _} (gb : α → α → Bool) (xs acc : List α) :
    (xs.foldl (fun acc x => pyInsertB gb x acc) acc).Perm (acc ++ xs) := by
  induction xs generalizing acc with
  | nil => simp
  | cons x xs ih =>
    simp only [List.foldl_cons]
    refine (ih (pyInsertB gb x acc)).trans ?_
    have h1 : (pyInsertB gb x acc ++ xs).Perm ((x :: acc) ++ xs) :=
      (pyInsertB_perm gb x acc).append_right xs
    refine h1.trans ?_
    show (x :: (acc ++ xs)).Perm (acc ++ x :: xs)
    exact List.perm_middle.symm

theorem pySort_perm {α : Type _} (gb : α → α → Bool) (xs : List α) :
    (pySort gb xs).Perm xs := by
  simpa using pySortAux_perm gb xs []

theorem mem_pySort {α : Type _} (gb : α → α → Bool) {a : α} {xs : List α} :
    a ∈ pySort gb xs ↔ a ∈ xs :=
  (pySort_perm gb xs).mem_iff

theorem pyInsertB_pairwise {α : Type _} (gb : α → α → Bool) (R : α → α → Prop)
    (htrans : ∀ a b c, R a b → R b c → R a c)
    (h1 : ∀ a b, gb a b = true → R a b)
    (h2 : ∀ a b, gb a b = false → R b a)
    (x : α) {ys : List α} (hys : ys.Pairwise R) :
    (pyInsertB gb x ys).Pairwise R := by
  induction ys with
  | nil => simp [pyInsertB]
  | cons y ys ih =>
    rcases List.pairwise_cons.mp hys with ⟨hy, hys'⟩
    by_cases h : gb x y = true
    · simp only [pyInsertB, if_pos h]
      refine List.pairwise_cons.mpr ⟨?_, hys⟩
      intro e he
      rcases List.mem_cons.mp he with rfl | he'
      · exact h1 x e h
      · exact htrans x y e (h1 x y h) (hy e he')
    · simp only [pyInsertB, if_neg h]
      refine List.pairwise_cons.mpr ⟨?_, ih hys'⟩
      intro e he
      rcases (mem_pyInsertB gb x e ys).mp he with rfl | he'
      · exact h2 e y (by simpa using h)
      · exact hy e he'

theorem pySort_pairwise {α : Type _} (gb : α → α → Bool) (R : α → α → Prop)
    (htrans : ∀ a b c, R a b → R b c → R a c)
    (h1 : ∀ a b, gb a b = true → R a b)
    (h2 : ∀ a b, gb a b = false → R b a)
    (xs : List α) : (pySort gb xs).Pairwise R := by
  suffices h : ∀ acc : List α, acc.Pairwise R →
      (xs.foldl (fun acc x => pyInsertB gb x acc) acc).Pairwise R by
    exact h [] (by simp)
  induction xs with
  | nil => intro acc hacc; simpa using hacc
  | cons x xs ih =>
    intro acc hacc
    simpa using ih (pyInsertB gb x acc) (pyInsertB_pairwise gb R htrans h1 h2 x hacc)

theorem pyInsertB_map {α β : Type _} (gb1 : α → α → Bool) (gb2 : β → β → Bool)
    (f : α → β) (hcompat : ∀ a b, gb2 (f a) (f b) = gb1 a b)
    (x : α) (ys : List α) :
    pyInsertB gb2 (f x) (ys.map f) = (pyInsertB gb1 x ys).map f := by
  induction ys with
  | nil => simp [pyInsertB]
  | cons y ys ih =>
    simp only [List.map_cons, pyInsertB, hcompat]
    by_cases h : gb1 x y = true
    · simp [h]
    · simp only [Bool.not_eq_true] at h
      simp [h, ih]

theorem pySort_map {α β : Type _} (gb1 : α → α → Bool) (gb2 : β → β → Bool)
    (f : α → β) (hcompat : ∀ a b, gb2 (f a) (f b) = gb1 a b)
    (xs : List α) : pySort gb2 (xs.map f) = (pySort gb1 xs).map f := by
  suffices h : ∀ acc : List α,
      (xs.map f).foldl (fun acc x => pyInsertB gb2 x acc) (acc.map f)
        = (xs.foldl (fun acc x => pyInsertB gb1 x acc) acc).map f by
    simpa using h []
  induction xs with
  | nil => intro acc; simp
  | cons x xs ih =>
    intro acc
    simp only [List.map_cons, List.foldl_cons]
    rw [pyInsertB_map gb1 gb2 f hcompat, ih]

/-! ### Facts about the `(score, published_at)` order -/

theorem lexLt_false_trans (a b c : Nat × Int) :
    lexLt a b = false → lexLt b c = false → lexLt a c = false := by
  simp only [lexLt, Bool.or_eq_false_iff, Bool.and_eq_false_iff,
    decide_eq_false_iff_not, not_lt]
  omega

theorem lexLt_true_asymm (a b : Nat × Int) :
    lexLt a b = true → lexLt b a = false := by
  simp only [lexLt, Bool.or_eq_true, Bool.and_eq_true, Bool.or_eq_false_iff,
    Bool.and_eq_false_iff, decide_eq_true_eq, decide_eq_false_iff_not, not_lt]
  omega

theorem lexLt_false_fst (a b : Nat × Int) :
    lexLt a b = false → b.1 ≤ a.1 := by
  simp only [lexLt, Bool.or_eq_false_iff, Bool.and_eq_false_iff,
    decide_eq_false_iff_not, not_lt]
  omega

theorem lexLt_zero_fst (p q : Int) :
    lexLt (0, p) (0, q) = decide (p < q) := by
  simp [lexLt]

/-! ### Characterizing the loops of `filter_and_rank_listings` -/

theorem frlFallbackLoop_eq (ls : List PyDict) :
    ∀ seen, frlFallbackLoop seen ls
      = (dedupById seen ls).map (fun l => (0, pubOf l, l)) := by
  induction ls with
  | nil => intro seen; simp [frlFallbackLoop, dedupById]
  | cons l ls ih =>
    intro seen
    by_cases h : idDup (pget l "id") seen = true
    · simp [frlFallbackLoop, dedupById, h, ih]
    · simp only [Bool.not_eq_true] at h
      simp [frlFallbackLoop, dedupById, h, ih]

theorem frlScoreLoop_eq (tokens : List String) (ls : List PyDict) :
    ∀ seen, frlScoreLoop tokens seen ls
      = ((dedupById seen ls).map
            (fun l => (_listing_match_score l tokens, pubOf l, l))).filter
          (fun e => !(!tokens.isEmpty && decide (e.1 = 0))) := by
  induction ls with
  | nil => intro seen; simp [frlScoreLoop, dedupById]
  | cons l ls ih =>
    intro seen
    by_cases h : idDup (pget l "id") seen = true
    · simp [frlScoreLoop, dedupById, h, ih]
    · simp only [Bool.not_eq_true] at h
      by_cases hte : tokens.isEmpty = true
      · simp [frlScoreLoop, dedupById, h, ih, List.filter_cons, hte]
      · simp only [Bool.not_eq_true] at hte
        by_cases hsc : _listing_match_score l tokens = 0
        · simp [frlScoreLoop, dedupById, h, ih, List.filter_cons, hte, hsc]
        · simp [frlScoreLoop, dedupById, h, ih, List.filter_cons, hte, hsc]

/-! ### Nat `foldr max` facts -/

theorem le_foldrMax (xs : List Nat) (a : Nat) (ha : a ∈ xs) :
    a ≤ xs.foldr Nat.max 0 := by
  induction xs with
  | nil => cases ha
  | cons x xs ih =>
    rcases List.mem_cons.mp ha with rfl | h
    · exact Nat.le_max_left _ _
    · exact le_trans (ih h) (Nat.le_max_right _ _)

theorem foldrMax_attained (xs : List Nat) :
    xs.foldr Nat.max 0 = 0 ∨ xs.foldr Nat.max 0 ∈ xs := by
  induction xs with
  | nil => left; rfl
  | cons x xs ih =>
    rcases Nat.le_total (xs.foldr Nat.max 0) x with h | h
    · right
      simp [Nat.max_eq_left h]
    · rcases ih with h0 | hmem
      · rcases Nat.eq_zero_of_le_zero (h0 ▸ h) with rfl
        left; simp [h0]
      · right
        simp only [List.foldr_cons, Nat.max_eq_right h, List.mem_cons]
        exact Or.inr hmem

theorem filter_eq_nil_of {α : Type _} (p : α → Bool) (l : List α)
    (h : ∀ a ∈ l, p a = false) : l.filter p = [] := by
  induction l with
  | nil => rfl
  | cons x xs ih =>
    rw [List.filter_cons, if_neg (by simp [h x (List.mem_cons_self x xs)])]
    exact ih (fun a ha => h a (List.mem_cons_of_mem x ha))

theorem dedupById_subset (ls : List PyDict) :
    ∀ seen l, l ∈ dedupById seen ls → l ∈ ls := by
  induction ls with
  | nil => intro seen l h; simp [dedupById] at h
  | cons x xs ih =>
    intro seen l h
    by_cases hd : idDup (pget x "id") seen = true
    · simp only [dedupById, if_pos hd] at h
      exact List.mem_cons_of_mem x (ih _ l h)
    · simp only [dedupById, if_neg hd, List.mem_cons] at h
      rcases h with rfl | h
      · exact List.mem_cons_self _ _
      · exact List.mem_cons_of_mem x (ih _ l h)

theorem dedupById_ne_nil (l : PyDict) (ls : List PyDict) :
    dedupById [] (l :: ls) ≠ [] := by
  have hd : idDup (pget l "id") [] = false := by
    cases pget l "id" <;> simp [idDup]
  simp [dedupById, hd]

/-- The comparator used by `filter_and_rank_listings` on scored entries. -/
def entGb (x y : Nat × Int × PyDict) : Bool := lexLt (entryKey y) (entryKey x)

theorem entGb_pairwise (xs : List (Nat × Int × PyDict)) :
    (pySort entGb xs).Pairwise
      (fun x y => lexLt (entryKey x) (entryKey y) = false) := by
  refine pySort_pairwise entGb _ ?_ ?_ ?_ xs
  · intro a b c hab hbc
    exact lexLt_false_trans _ _ _ hab hbc
  · intro a b h
    exact lexLt_true_asymm _ _ h
  · intro a b h
    exact h

/-- C5: when the query has tokens but nothing matchesL,
`filter_and_rank_listings` returns the id-deduplicated input sorted by
recency descending, truncated to `max_items`, with best score 0. -/
theorem C5_recency_fallback (listings : List PyDict) (query : Option String)
    (m : Int)
    (htok : _tokenize_query query ≠ [])
    (hzero : ∀ l ∈ listings, _listing_match_score l (_tokenize_query query) = 0)
    (hm : 0 < m) :
    filter_and_rank_listings listings query m
      = ((recencySortDesc (dedupById [] listings)).take m.toNat, 0) := by
  have hte : (_tokenize_query query).isEmpty = false := by
    cases h : _tokenize_query query with
    | nil => exact absurd h htok
    | cons a as => rfl
  by_cases hnil : listings.isEmpty = true
  · rcases List.isEmpty_iff.mp hnil with rfl
    simp [filter_and_rank_listings, dedupById, recencySortDesc, pySort]
  · simp only [Bool.not_eq_true] at hnil
    have hsc : frlScoreLoop (_tokenize_query query) [] listings = [] := by
      rw [frlScoreLoop_eq]
      refine filter_eq_nil_of _ _ ?_
      intro e he
      rcases List.mem_map.mp he with ⟨l, hl, rfl⟩
      simp [hte, hzero l (dedupById_subset listings [] l hl)]
    have hcompat : ∀ a b : PyDict,
        entGb ((fun l => ((0 : Nat), pubOf l, l)) a) ((fun l => ((0 : Nat), pubOf l, l)) b)
          = decide (pubOf b < pubOf a) := by
      intro a b
      simp [entGb, entryKey, lexLt]
    have hsort := pySort_map (fun a b => decide (pubOf b < pubOf a)) entGb
      (fun l => ((0 : Nat), pubOf l, l)) hcompat (dedupById [] listings)
    simp only [filter_and_rank_listings, hnil, Bool.false_eq_true, if_false,
      if_neg (show ¬ (m ≤ 0) by omega), hsc, List.isEmpty_nil, ite_true,
      frlFallbackLoop_eq]
    rw [show (pySort (fun x y => lexLt (entryKey y) (entryKey x))
          ((dedupById [] listings).map (fun l => ((0 : Nat), pubOf l, l))))
        = pySort entGb ((dedupById [] listings).map (fun l => ((0 : Nat), pubOf l, l)))
      from rfl, hsort]
    rw [if_pos (show m ≠ 0 by omega)]
    cases hS : pySort (fun a b => decide (pubOf b < pubOf a)) (dedupById [] listings) with
    | nil => simp [recencySortDesc, hS]
    | cons h t =>
      rw [← List.map_take, List.map_map]
      rw [show ((fun e : Nat × Int × PyDict => e.2.2) ∘ fun l => ((0 : Nat), pubOf l, l))
          = fun l => l from rfl]
      simp [recencySortDesc, hS]

/-- C10: the returned best score is the maximum match score over the
id-deduplicated input, and the returned list length is at most
`max_items`. -/
theorem C10_best_score_and_cap (listings : List PyDict) (query : Option String)
    (m : Int) (hne : listings ≠ []) (hm : 0 < m) :
    (filter_and_rank_listings listings query m).2
        = ((maxMatchScore (_tokenize_query query) (dedupById [] listings) : Nat) : ℚ)
      ∧ (filter_and_rank_listings listings query m).1.length ≤ m.toNat := by
  have hnil : listings.isEmpty = false := by
    cases listings with
    | nil => exact absurd rfl hne
    | cons a as => rfl
  have hDne : dedupById [] listings ≠ [] := by
    cases listings with
    | nil => exact absurd rfl hne
    | cons a as => exact dedupById_ne_nil a as
  simp only [filter_and_rank_listings, hnil, Bool.false_eq_true, if_false,
    if_neg (show ¬ (m ≤ 0) by omega), frlScoreLoop_eq, frlFallbackLoop_eq,
    if_pos (show m ≠ 0 by omega)]
  set tokens := _tokenize_query query with htokens
  set D := dedupById [] listings with hD
  set mapped := D.map (fun l => (_listing_match_score l tokens, pubOf l, l)) with hmapped
  set scored0 := mapped.filter (fun e => !(!tokens.isEmpty && decide (e.1 = 0))) with hscored0
  constructor
  · -- best score equals the max over deduplicated listings
    rw [maxMatchScore_def]
    by_cases hempty : scored0.isEmpty = true
    · -- recency fallback: every deduplicated listing scored 0
      have hall : ∀ e ∈ mapped, e.1 = 0 := by
        intro e he
        have hfe := List.isEmpty_iff.mp hempty
        by_contra hne1
        have hpe : (fun e => !(!tokens.isEmpty && decide (e.1 = 0))) e = true := by
          simp [hne1]
        have : e ∈ scored0 := List.mem_filter.mpr ⟨he, hpe⟩
        rw [hfe] at this
        cases this
      have hM : (D.map (fun l => _listing_match_score l tokens)).foldr Nat.max 0 = 0 := by
        rcases foldrMax_attained (D.map (fun l => _listing_match_score l tokens)) with h0 | hmem
        · exact h0
        · rcases List.mem_map.mp hmem with ⟨l, hl, hval⟩
          have hmem2 : ((fun l => (_listing_match_score l tokens, pubOf l, l)) l) ∈ mapped :=
            List.mem_map_of_mem _ hl
          have := hall _ hmem2
          simp only at this
          rw [← hval, this]
      rw [hM, if_pos hempty]
      cases hS : pySort (fun x y => lexLt (entryKey y) (entryKey x))
          (D.map fun l => ((0 : Nat), pubOf l, l)) with
      | nil =>
        have := (pySort_perm (fun x y => lexLt (entryKey y) (entryKey x))
          (D.map fun l => ((0 : Nat), pubOf l, l))).length_eq
        rw [hS] at this
        simp only [List.length_nil, List.length_map] at this
        exact absurd (List.length_eq_zero.mp this.symm) hDne
      | cons e t =>
        have he : e ∈ pySort (fun x y => lexLt (entryKey y) (entryKey x))
            (D.map fun l => ((0 : Nat), pubOf l, l)) := by
          rw [hS]; exact List.mem_cons_self _ _
        have := (mem_pySort _).mp he
        rcases List.mem_map.mp this with ⟨l, _, rfl⟩
        simp
    · -- at least one positive-scoring entry survived
      simp only [Bool.not_eq_true] at hempty
      rw [if_neg (by simp [hempty])]
      cases hS : pySort (fun x y => lexLt (entryKey y) (entryKey x)) scored0 with
      | nil =>
        have hlen := (pySort_perm (fun x y => lexLt (entryKey y) (entryKey x)) scored0).length_eq
        rw [hS] at hlen
        simp only [List.length_nil] at hlen
        have hne2 : scored0 ≠ [] := by
          intro hcon
          rw [hcon] at hempty
          simp at hempty
        exact absurd (List.length_eq_zero.mp hlen.symm) hne2
      | cons h t =>
        have hhead : h ∈ scored0 := by
          have : h ∈ pySort (fun x y => lexLt (entryKey y) (entryKey x)) scored0 := by
            rw [hS]; exact List.mem_cons_self _ _
          exact (mem_pySort _).mp this
        rcases List.mem_map.mp (List.mem_of_mem_filter hhead) with ⟨l, hl, hlh⟩
        have hle : h.1 ≤ (D.map (fun l => _listing_match_score l tokens)).foldr Nat.max 0 := by
          rw [← hlh]
          exact le_foldrMax _ _ (List.mem_map_of_mem _ hl)
        have hge : (D.map (fun l => _listing_match_score l tokens)).foldr Nat.max 0 ≤ h.1 := by
          rcases foldrMax_attained (D.map (fun l => _listing_match_score l tokens)) with h0 | hmem
          · omega
          · rcases List.mem_map.mp hmem with ⟨l2, hl2, hval⟩
            by_cases hM0 : (D.map (fun l => _listing_match_score l tokens)).foldr Nat.max 0 = 0
            · omega
            · have hkeep : ((fun l => (_listing_match_score l tokens, pubOf l, l)) l2) ∈ scored0 := by
                refine List.mem_filter.mpr ⟨List.mem_map_of_mem _ hl2, ?_⟩
                simp [hval, hM0]
              have hin : ((fun l => (_listing_match_score l tokens, pubOf l, l)) l2)
                  ∈ pySort (fun x y => lexLt (entryKey y) (entryKey x)) scored0 :=
                (mem_pySort _).mpr hkeep
              rw [hS, List.mem_cons] at hin
              rcases hin with heq | hin
              · rw [← hval, ← heq]
              · have hpw := entGb_pairwise scored0
                rw [show pySort entGb scored0
                    = pySort (fun x y => lexLt (entryKey y) (entryKey x)) scored0
                  from rfl, hS, List.pairwise_cons] at hpw
                have hfst := lexLt_false_fst _ _ (hpw.1 _ hin)
                simp only [entryKey] at hfst
                omega
        have hq : h.1 = (D.map (fun l => _listing_match_score l tokens)).foldr Nat.max 0 :=
          le_antisymm hle hge
        simp [hq]
  · -- length bound
    by_cases hempty : scored0.isEmpty = true <;>
      simp [hempty, List.length_take, Int.toNat_of_nonneg (by omega : (0:Int) ≤ m)]

/-- Concrete listing for the C5 witness. -/
def c5a : PyDict :=
  [("id", .vstr "a"), ("title", .vstr "Vintage Lamp"), ("published_at", .vdt 100)]

/-- Concrete listing for the C5 witness. -/
def c5b : PyDict :=
  [("id", .vstr "b"), ("title", .vstr "Modern Desk"), ("published_at", .vdt 200)]

/-- Witness for C5 at a concrete query with no matchesL. -/
theorem C5_recency_fallback_witness :
    _tokenize_query (some "garden tools") ≠ []
      ∧ (∀ l ∈ [c5a, c5b], _listing_match_score l (_tokenize_query (some "garden tools")) = 0)
      ∧ (0 : Int) < 3
      ∧ filter_and_rank_listings [c5a, c5b] (some "garden tools") 3
          = ((recencySortDesc (dedupById [] [c5a, c5b])).take ((3 : Int)).toNat, 0) :=
  ⟨by decide, by intro l hl; fin_cases hl <;> decide, by decide,
    C5_recency_fallback [c5a, c5b] (some "garden tools") 3 (by decide)
      (by intro l hl; fin_cases hl <;> decide) (by decide)⟩

/-- Concrete listing for the C10 witness. -/
def c10a : PyDict :=
  [("id", .vstr "x"), ("title", .vstr "Maple Syrup"), ("published_at", .vdt 50)]

/-- Concrete listing for the C10 witness. -/
def c10b : PyDict :=
  [("id", .vstr "y"), ("title", .vstr "Desk"), ("published_at", .vdt 60)]

/-- Witness for C10 at a concrete query with one matching listing. -/
theorem C10_best_score_and_cap_witness :
    ([c10a, c10b] : List PyDict) ≠ []
      ∧ (0 : Int) < 1
      ∧ ((filter_and_rank_listings [c10a, c10b] (some "maple") 1).2
            = ((maxMatchScore (_tokenize_query (some "maple")) (dedupById [] [c10a, c10b]) : Nat) : ℚ)
          ∧ (filter_and_rank_listings [c10a, c10b] (some "maple") 1).1.length ≤ (1 : Int).toNat) :=
  ⟨List.cons_ne_nil _ _, by decide,
    C10_best_score_and_cap [c10a, c10b] (some "maple") 1 (List.cons_ne_nil _ _) (by decide)⟩

/-! ### Bech32 key codec (listings.py) -/

/-- The bech32 data charset. -/
def _BECH32_CHARSET : String := "qpzry9x8gf2tvdw0s3jn54khce6mua7l"

/-- The five generator constants of the bech32 polymod. -/
def _bech32_generator : List Nat :=
  [0x3B6A57B2, 0x26508E6D, 0x1EA119FA, 0x3D4233DD, 0x2A1462B3]

/-- `_bech32_polymod` (listings.py). -/
def _bech32_polymod (values : List Nat) : Nat :=
  values.foldl
    (fun chk value =>
      let top := chk >>> 25
      let chk2 := ((chk &&& 0x1FFFFFF) <<< 5) ^^^ value
      (List.range 5).foldl
        (fun c i => if (top >>> i) &&& 1 = 1 then c ^^^ (_bech32_generator.getD i 0) else c)
        chk2)
    1

/-- `_bech32_hrp_expand` (listings.py). -/
def _bech32_hrp_expand (hrp : String) : List Nat :=
  hrp.toList.map (fun x => x.toNat >>> 5) ++ [0] ++ hrp.toList.map (fun x => x.toNat &&& 31)

/-- `_bech32_verify_checksum` (listings.py). -/
def _bech32_verify_checksum (hrp : String) (data : List Nat) : Bool :=
  _bech32_polymod (_bech32_hrp_expand hrp ++ data) = 1

/-- ASCII whitespace test (model of what Python `str.strip` removes; the
source only ever strips ASCII data). -/
def isPySpace (c : Char) : Bool :=
  c = ' ' || c = '\t' || c = '\n' || c = '\r' || c.toNat = 11 || c.toNat = 12

/-- Python `str.strip()`. -/
def strStrip (s : String) : String :=
  String.mk (((s.toList.dropWhile isPySpace).reverse.dropWhile isPySpace).reverse)

/-- Python `str.rfind(c)`: index of the last occurrence, `-1` when absent. -/
def rfindAux (c : Char) : List Char → Nat → Int → Int
  | [], _, best => best
  | x :: xs, i, best => rfindAux c xs (i + 1) (if x = c then (i : Int) else best)

/-- Python `str.rfind(c)`. -/
def rfindChar (c : Char) (l : List Char) : Int := rfindAux c l 0 (-1)

/-- `_BECH32_CHARSET.index(c)`, `none` when the character is absent. -/
def charsetIndex (c : Char) : Option Nat :=
  let rec go : List Char → Nat → Option Nat
    | [], _ => none
    | x :: xs, i => if x = c then some i else go xs (i + 1)
  go _BECH32_CHARSET.toList 0

/-- `_bech32_decode` (listings.py): character-range check, strip, split at
the last `1`, length bounds, charset decoding and checksum verification;
returns `(None, None)` on any failure, else the hrp and the data with the
6 checksum values removed. -/
def _bech32_decode (bech : String) : Option String × Option (List Nat) :=
  if bech = "" || bech.toList.any (fun x => x.toNat < 33 || x.toNat > 126) then (none, none)
  else
    let bech := strStrip bech
    let pos := rfindChar '1' bech.toList
    if pos < 1 || pos + 7 > (bech.length : Int) || (bech.length : Int) > 90 then (none, none)
    else
      let hrp := String.mk (bech.toList.take pos.toNat)
      let dataPart := bech.toList.drop (pos.toNat + 1)
      match dataPart.mapM charsetIndex with
      | none => (none, none)
      | some data =>
        if _bech32_verify_checksum hrp data then
          (some hrp, some (data.take (data.length - 6)))
        else (none, none)

/-- The inner `while bits >= to_bits` emission loop of `_convert_bits`;
`fuel` bounds the iteration count (any `fuel ≥ bits` is enough since each
iteration removes `to_bits ≥ 1` bits; `to_bits = 0` would not terminate in
the source either and is cut off here). -/
def emitLoop (toBits maxv acc : Nat) : Nat → Nat → List Nat → Nat × List Nat
  | 0, bits, ret => (bits, ret)
  | fuel + 1, bits, ret =>
    if toBits ≤ bits ∧ 0 < toBits then
      let bits' := bits - toBits
      emitLoop toBits maxv acc fuel bits' (ret ++ [(acc >>> bits') &&& maxv])
    else (bits, ret)

/-- The main loop of `_convert_bits`: rejects oversized values, shifts each
value into the accumulator and emits full groups. -/
def cbMain (fromBits toBits maxv : Nat) : List Nat → Nat → Nat → Option (Nat × Nat × List Nat)
  | [], acc, bits => some (acc, bits, [])
  | value :: rest, acc, bits =>
    if value >>> fromBits ≠ 0 then none
    else
      let acc' := (acc <<< fromBits) ||| value
      let r := emitLoop toBits maxv acc' (bits + fromBits) (bits + fromBits) []
      match cbMain fromBits toBits maxv rest acc' r.1 with
      | none => none
      | some (accF, bitsF, retRest) => some (accF, bitsF, r.2 ++ retRest)

/-- `_convert_bits` (listings.py). -/
def _convert_bits (data : List Nat) (from_bits to_bits : Nat) (pad : Bool) : Option (List Nat) :=
  let maxv := (1 <<< to_bits) - 1
  match cbMain from_bits to_bits maxv data 0 0 with
  | none => none
  | some (acc, bits, ret) =>
    if pad then
      if bits ≠ 0 then some (ret ++ [(acc <<< (to_bits - bits)) &&& maxv]) else some ret
    else if from_bits ≤ bits ∨ ((acc <<< (to_bits - bits)) &&& maxv) ≠ 0 then none
    else some ret

/-- Lowercase hex digit. -/
def hexDigit (n : Nat) : Char := "0123456789abcdef".toList.getD n '0'

/-- Python `bytes.hex()`: two lowercase hex digits per byte. -/
def bytesToHex (bs : List Nat) : String :=
  String.mk ((bs.map (fun b => [hexDigit (b / 16), hexDigit (b % 16)])).flatten)

/-- `_npub_to_hex` (listings.py): strip, bech32-decode, require hrp
`"npub"`, convert the payload from 5-bit to 8-bit groups without padding,
and render it as hex; `none` on any failure. -/
def _npub_to_hex (npub : String) : Option String :=
  let npub := strStrip npub
  match _bech32_decode npub with
  | (some hrp, some data) =>
    if hrp ≠ "npub" then none
    else
      match _convert_bits data 5 8 false with
      | none => none
      | some decoded => some (bytesToHex decoded)
  | _ => none

/-! ### Lemmas for the key codec claim -/

theorem emitLoop_fst (maxv acc : Nat) :
    ∀ fuel bits ret, bits ≤ fuel → (emitLoop 8 maxv acc fuel bits ret).1 = bits % 8 := by
  intro fuel
  induction fuel with
  | zero =>
    intro bits ret h
    have : bits = 0 := Nat.le_zero.mp h
    subst this
    simp [emitLoop]
  | succ fuel ih =>
    intro bits ret h
    by_cases h8 : 8 ≤ bits
    · rw [emitLoop, if_pos ⟨h8, by omega⟩]
      rw [ih (bits - 8) _ (by omega)]
      omega
    · rw [emitLoop, if_neg (by omega)]
      simp
      omega

theorem emitLoop_len (maxv acc : Nat) :
    ∀ fuel bits ret, bits ≤ fuel →
      (emitLoop 8 maxv acc fuel bits ret).2.length = ret.length + bits / 8 := by
  intro fuel
  induction fuel with
  | zero =>
    intro bits ret h
    have : bits = 0 := Nat.le_zero.mp h
    subst this
    simp [emitLoop]
  | succ fuel ih =>
    intro bits ret h
    by_cases h8 : 8 ≤ bits
    · rw [emitLoop, if_pos ⟨h8, by omega⟩]
      rw [ih (bits - 8) _ (by omega)]
      simp
      omega
    · rw [emitLoop, if_neg (by omega)]
      simp
      omega

theorem cbMain_spec (maxv : Nat) :
    ∀ (data : List Nat) (acc bits accF bitsF : Nat) (ret : List Nat),
      cbMain 5 8 maxv data acc bits = some (accF, bitsF, ret) → bits < 8 →
      bitsF < 8 ∧ 8 * ret.length + bitsF = 5 * data.length + bits := by
  intro data
  induction data with
  | nil =>
    intro acc bits accF bitsF ret h hb
    simp [cbMain] at h
    obtain ⟨_, h2, h3⟩ := h
    subst h2; subst h3
    constructor
    · exact hb
    · simp
  | cons value rest ih =>
    intro acc bits accF bitsF ret h hb
    rw [cbMain] at h
    by_cases hv : value >>> 5 ≠ 0
    · rw [if_pos hv] at h; cases h
    · rw [if_neg hv] at h
      simp only at h
      set acc2 := (acc <<< 5) ||| value with hacc2
      have hfst := emitLoop_fst maxv acc2 (bits + 5) (bits + 5) [] (le_refl _)
      have hlen := emitLoop_len maxv acc2 (bits + 5) (bits + 5) [] (le_refl _)
      simp only [List.length_nil, Nat.zero_add] at hlen
      cases hrec : cbMain 5 8 maxv rest acc2 (emitLoop 8 maxv acc2 (bits + 5) (bits + 5) []).1 with
      | none => rw [hrec] at h; cases h
      | some out =>
        rcases out with ⟨accR, bitsR, retR⟩
        rw [hrec] at h
        simp only [Option.some.injEq, Prod.mk.injEq] at h
        rcases h with ⟨h1, h2, h3⟩
        rw [hfst] at hrec
        have hih := ih acc2 ((bits + 5) % 8) accR bitsR retR hrec (by omega)
        subst h2
        constructor
        · exact hih.1
        · rw [← h3]
          simp only [List.length_append, List.length_cons]
          omega

theorem strMk_length (l : List Char) : (String.mk l).length = l.length := rfl

theorem bytesToHex_length (bs : List Nat) : (bytesToHex bs).length = 2 * bs.length := by
  induction bs with
  | nil => rfl
  | cons b rest ih =>
    simp only [bytesToHex, strMk_length, List.map_cons, List.flatten_cons,
      List.length_append, List.length_cons, List.length_nil] at *
    omega

theorem convert_bits_52 (data ret : List Nat)
    (h : _convert_bits data 5 8 false = some ret) (hlen : data.length = 52) :
    ret.length = 32 := by
  simp only [_convert_bits] at h
  cases hcb : cbMain 5 8 ((1 <<< 8) - 1) data 0 0 with
  | none => rw [hcb] at h; cases h
  | some out =>
    rcases out with ⟨acc, bits, ret0⟩
    rw [hcb] at h
    have h2 : (if 5 ≤ bits ∨ ((acc <<< (8 - bits)) &&& ((1 <<< 8) - 1)) ≠ 0 then (none : Option (List Nat))
        else some ret0) = some ret := h
    clear h
    by_cases hguard : (5 ≤ bits ∨ ((acc <<< (8 - bits)) &&& ((1 <<< 8) - 1)) ≠ 0)
    · rw [if_pos hguard] at h2; cases h2
    · rw [if_neg hguard] at h2
      simp only [Option.some.injEq] at h2
      subst h2
      have hspec := cbMain_spec ((1 <<< 8) - 1) data 0 0 acc bits ret0 hcb (by omega)
      push_neg at hguard
      omega

/-- C3 counterexample: `"npub106246s"` is a checksum-valid npub whose data
part is exactly the 6 checksum characters, so the payload is empty;
`_npub_to_hex` returns the empty hex string rather than a 64-character key
or the invalid marker, refuting the claimed dichotomy. -/
theorem C3_counterexample_short_npub :
    _npub_to_hex "npub106246s" = some "" ∧ ¬ (("" : String).length = 64) :=
  ⟨rfl, by decide⟩

/-- C3 (amended): `_npub_to_hex` is total (never raises, `none` on any
structural violation), and the returned hex string is 64 characters
whenever the checksum-stripped data part has the standard 52 values
(a 32-byte payload); other payload sizes can slip through with a
different hex length. -/
theorem C3_amended_hex_length (s hrp : String) (data : List Nat) (h : String)
    (hdec : _bech32_decode (strStrip s) = (some hrp, some data))
    (hlen : data.length = 52)
    (hres : _npub_to_hex s = some h) :
    h.length = 64 := by
  simp only [_npub_to_hex] at hres
  rw [hdec] at hres
  simp only at hres
  by_cases hhrp : hrp = "npub"
  · rw [if_neg (by simp [hhrp])] at hres
    cases hcv : _convert_bits data 5 8 false with
    | none => rw [hcv] at hres; cases hres
    | some decoded =>
      rw [hcv] at hres
      simp only [Option.some.injEq] at hres
      subst hres
      rw [bytesToHex_length, convert_bits_52 data decoded hcv hlen]
  · rw [if_pos (by simp [hhrp])] at hres
    cases hres

/-- The npub encoding of the all-zero 32-byte key (52 `q` data characters
plus checksum). -/
def npubZero : String := "npub1qqqqqqqqqqqqqqqqqqqqqqqqqqqqqqqqqqqqqqqqqqqqqqqqqqqqzqujme"

set_option maxRecDepth 4000 in
/-- Witness for the amended C3 theorem at the all-zero npub. -/
theorem C3_amended_hex_length_witness :
    _bech32_decode (strStrip npubZero) = (some "npub", some (List.replicate 52 0))
      ∧ (List.replicate 52 (0 : Nat)).length = 52
      ∧ _npub_to_hex npubZero = some "0000000000000000000000000000000000000000000000000000000000000000"
      ∧ ("0000000000000000000000000000000000000000000000000000000000000000" : String).length = 64 :=
  ⟨rfl, by decide, rfl,
    C3_amended_hex_length npubZero "npub" (List.replicate 52 0) "0000000000000000000000000000000000000000000000000000000000000000"
      rfl (by decide) rfl⟩

/-! ### Geohash decoding (geolocation.py) -/

/-- The geohash base-32 charset. -/
def _GEOHASH_BASE32 : String := "0123456789bcdefghjkmnpqrstuvwxyz"

/-- `_GEOHASH_BASE32.index(c)`. -/
def geoCharIndex (c : Char) : Option Nat :=
  let rec go : List Char → Nat → Option Nat
    | [], _ => none
    | x :: xs, i => if x = c then some i else go xs (i + 1)
  go _GEOHASH_BASE32.toList 0

/-- `_refine_interval` (geolocation.py): halve the interval on one bit. -/
def _refine_interval (interval : ℚ × ℚ) (mask value : Nat) : ℚ × ℚ :=
  let midpoint := (interval.1 + interval.2) / 2
  if value &&& mask ≠ 0 then (midpoint, interval.2) else (interval.1, midpoint)

/-- `decode_geohash` (geolocation.py): midpoint of the decoded bounding
box, `none` on an empty string or an invalid character. -/
def decode_geohash (geohash : String) : Option (ℚ × ℚ) :=
  let chunk := strLower (strStrip geohash)
  if chunk = "" then none
  else
    let step := fun (st : Option ((ℚ × ℚ) × (ℚ × ℚ) × Bool)) (c : Char) =>
      match st with
      | none => none
      | some (latI, lonI, even) =>
        match geoCharIndex c with
        | none => none
        | some cv =>
          some (([16, 8, 4, 2, 1] : List Nat).foldl
            (fun (acc : (ℚ × ℚ) × (ℚ × ℚ) × Bool) mask =>
              let (latI, lonI, even) := acc
              if even then (latI, _refine_interval lonI mask cv, !even)
              else (_refine_interval latI mask cv, lonI, !even))
            (latI, lonI, even))
    match chunk.toList.foldl step (some (((-90 : ℚ), (90 : ℚ)), ((-180 : ℚ), (180 : ℚ)), true)) with
    | none => none
    | some (latI, lonI, _) => some ((latI.1 + latI.2) / 2, (lonI.1 + lonI.2) / 2)

/-! ### Listing parser helpers (listings.py) -/

/-- `v is None` as a Bool. -/
def isNoneV : PVal → Bool
  | .vnone => true
  | _ => false

/-- Python `a or b` on modelled values (returns `b` when `a` is falsy). -/
def pyOrV (a b : PVal) : PVal := if truthy a then a else b

/-- Lift an optional string into a modelled value. -/
def optStr : Option String → PVal
  | none => .vnone
  | some s => .vstr s

/-- Lift an optional rational into a modelled value. -/
def optQ : Option ℚ → PVal
  | none => .vnone
  | some q => .vnum q

/-- ASCII digit test. -/
def isDigitC (c : Char) : Bool := '0' ≤ c && c ≤ '9'

/-- Digits to a natural number. -/
def digitsToNat (l : List Char) : Nat := l.foldl (fun n c => n * 10 + (c.toNat - 48)) 0

/-- Model of Python `float(s)` on plain decimal literals
(`[+-]digits[.digits]`, surrounding whitespace stripped); the source only
feeds it price amounts and latitude/longitude strings.  Exponents and
`inf`/`nan` forms, which Python would also accept, are out of the model. -/
def strToFloat (s : String) : Option ℚ :=
  let cs := (strStrip s).toList
  let signAndRest : ℚ × List Char :=
    match cs with
    | '-' :: rest => (-1, rest)
    | '+' :: rest => (1, rest)
    | _ => (1, cs)
  let sign := signAndRest.1
  let cs := signAndRest.2
  let ip := cs.takeWhile isDigitC
  let rest := cs.dropWhile isDigitC
  match rest with
  | [] => if ip.isEmpty then none else some (sign * (digitsToNat ip : ℚ))
  | '.' :: frac =>
    let fp := frac.takeWhile isDigitC
    let rest2 := frac.dropWhile isDigitC
    if !rest2.isEmpty then none
    else if ip.isEmpty && fp.isEmpty then none
    else some (sign * ((digitsToNat ip : ℚ) + (digitsToNat fp : ℚ) / ((10 : ℚ) ^ fp.length)))
  | _ => none

/-- Model of Python `int(s)` (digits with optional sign), `none` in place
of `ValueError`. -/
def strToIntPy (s : String) : Option Int :=
  let cs := (strStrip s).toList
  let signAndRest : Int × List Char :=
    match cs with
    | '-' :: rest => (-1, rest)
    | '+' :: rest => (1, rest)
    | _ => (1, cs)
  if signAndRest.2.isEmpty || !signAndRest.2.all isDigitC then none
  else some (signAndRest.1 * (digitsToNat signAndRest.2 : Int))

/-- Python `int()` truncation toward zero of a rational. -/
def pyIntTrunc (q : ℚ) : Int := if 0 ≤ q then q.floor else -((-q).floor)

/-- `s.isdigit()` for ASCII content. -/
def strIsDigit (s : String) : Bool := !s.toList.isEmpty && s.toList.all isDigitC

/-- `_normalize_tags` (listings.py): decode a raw tags value into a list of
string lists; JSON-text input is decoded through `jloads` (the model of
`json.loads`, a parameter because the embedding has no JSON parser);
non-iterable data or a decode failure yields `[]`, and only list-shaped
items are kept, their parts stringified. -/
def _normalize_tags (jloads : String → Option PVal) (raw : PVal) : List (List String) :=
  let data := match raw with
    | .vnone => none
    | .vstr s =>
      match jloads s with
      | none => none
      | some d => some d
    | v => some v
  match data with
  | none => []
  | some (.vlist xs) =>
    xs.filterMap (fun item =>
      match item with
      | .vlist parts => some (parts.map pyStr)
      | _ => none)
  | some _ => []

/-- Append a tag body to its name's bucket, preserving first-insertion
order of buckets (`defaultdict(list)` behaviour). -/
def bucketAppend (k : String) (v : List String) :
    List (String × List (List String)) → List (String × List (List String))
  | [] => [(k, [v])]
  | (k2, vs) :: rest =>
    if k2 = k then (k2, vs ++ [v]) :: rest else (k2, vs) :: bucketAppend k v rest

/-- `_group_tags` (listings.py). -/
def _group_tags (tags : List (List String)) : List (String × List (List String)) :=
  tags.foldl
    (fun grouped tag =>
      match tag with
      | [] => grouped
      | name :: rest => bucketAppend name rest grouped)
    []

/-- `_first_value` (listings.py). -/
def _first_value (grouped : List (String × List (List String))) (key : String) :
    Option String :=
  match grouped.find? (fun kv => kv.1 = key) with
  | none => none
  | some (_, values) =>
    match values with
    | [] => none
    | first :: _ =>
      match first with
      | [] => none
      | v :: _ => some v

/-- `_parse_price` (listings.py): first `price` tag, amount parsed as a
float, currency/frequency kept when truthy; no price at all when both
amount and currency are missing. -/
def _parse_price (grouped : List (String × List (List String))) : Option PyDict :=
  match grouped.find? (fun kv => kv.1 = "price") with
  | none => none
  | some (_, priceEntries) =>
    match priceEntries with
    | [] => none
    | components :: _ =>
      if components.isEmpty then none
      else
        let amount := match components.head? with
          | some a => strToFloat a
          | none => none
        let currency := components.getD 1 "" |> (fun c => if components.length ≥ 2 then some c else none)
        let frequency := if components.length ≥ 3 then some (components.getD 2 "") else none
        if amount.isNone ∧ currency.isNone then none
        else
          let payload : PyDict :=
            (match amount with
              | some a => [("amount", PVal.vnum a)]
              | none => [])
            ++ (match currency with
              | some c => if c ≠ "" then [("currency", PVal.vstr c)] else []
              | none => [])
            ++ (match frequency with
              | some f => if f ≠ "" then [("frequency", PVal.vstr f)] else []
              | none => [])
          some payload

/-- `_parse_published_at` (listings.py): a digit-only `published_at` tag
becomes a UTC datetime, else the record's `created_at`; `none` otherwise.
(`datetime.fromtimestamp` is modelled as total; Python `int()` of a
non-numeric `created_at` would raise `TypeError`, which the DB schema
rules out — those cases return `none` here.) -/
def _parse_published_at (grouped : List (String × List (List String)))
    (created_at : PVal) : Option Int :=
  let publishedRaw := _first_value grouped "published_at"
  match publishedRaw with
  | some s =>
    if strIsDigit s then some (digitsToNat s.toList : Int)
    else
      match created_at with
      | .vnone => none
      | .vnum q => some (pyIntTrunc q)
      | .vbool b => some (if b then 1 else 0)
      | .vstr s2 => strToIntPy s2
      | _ => none
  | none =>
    match created_at with
    | .vnone => none
    | .vnum q => some (pyIntTrunc q)
    | .vbool b => some (if b then 1 else 0)
    | .vstr s2 => strToIntPy s2
    | _ => none

/-- `_collect_images` (listings.py). -/
def _collect_images (grouped : List (String × List (List String))) : List String :=
  (["image", "thumb", "picture", "x", "media"].map
    (fun key =>
      match grouped.find? (fun kv => kv.1 = key) with
      | none => []
      | some (_, entries) =>
        entries.filterMap (fun entry =>
          match entry with
          | v :: _ => if v ≠ "" then some v else none
          | [] => none))).flatten

/-- `_collect_keywords` (listings.py): first component of each `t` tag. -/
def _collect_keywords (grouped : List (String × List (List String))) : List String :=
  match grouped.find? (fun kv => kv.1 = "t") with
  | none => []
  | some (_, entries) =>
    entries.filterMap (fun entry =>
      match entry with
      | v :: _ => if v ≠ "" then some v else none
      | [] => none)

/-- `_coerce_float` (listings.py); `bool` passes the `(int, float)`
isinstance check as in Python. -/
def _coerce_float (value : PVal) : Option ℚ :=
  match value with
  | .vnone => none
  | .vnum q => some q
  | .vbool b => some (if b then 1 else 0)
  | .vstr s => strToFloat s
  | _ => none

/-- `_extract_geohash` (listings.py): first non-blank string `geohash`
field of content then metadata, stripped. -/
def _extract_geohash (content meta : PyDict) : Option String :=
  let fromSource := fun (source : PyDict) =>
    match pget source "geohash" with
    | .vstr s => if strStrip s ≠ "" then some (strStrip s) else none
    | _ => none
  match fromSource content with
  | some g => some g
  | none => fromSource meta

/-- `_parse_listing` (listings.py): the tagged-event parsing path.  The
result is the listing dict with `None`-valued keys dropped except
`content`, `images`, `tags` and `raw_tags` (the final comprehension of the
source); `none` when the title tag is missing or blank. -/
def _parse_listing (jloads : String → Option PVal) (row : PyDict) : Option PyDict :=
  let tags := _normalize_tags jloads (pget row "tags")
  let grouped := _group_tags tags
  match _first_value grouped "title" with
  | none => none
  | some title =>
    if title = "" then none
    else
      let created_at := pget row "created_at"
      let published_at := _parse_published_at grouped created_at
      let price := _parse_price grouped
      let summary := _first_value grouped "summary"
      let location := _first_value grouped "location"
      let full_address := location
      let geohash_value := _first_value grouped "geohash"
      let latitude := _coerce_float (optStr (_first_value grouped "latitude"))
      let longitude := _coerce_float (optStr (_first_value grouped "longitude"))
      let latlon : Option ℚ × Option ℚ :=
        match geohash_value with
        | some g =>
          match decode_geohash g with
          | some decoded =>
            (match latitude with
              | some v => some v
              | none => some decoded.1,
             match longitude with
              | some v => some v
              | none => some decoded.2)
          | none => (latitude, longitude)
        | none => (latitude, longitude)
      let status := _first_value grouped "status"
      let url :=
        match _first_value grouped "url" with
        | some u =>
          if u ≠ "" then some u
          else
            match _first_value grouped "website" with
            | some w => if w ≠ "" then some w else _first_value grouped "r"
            | none => _first_value grouped "r"
        | none =>
          match _first_value grouped "website" with
          | some w => if w ≠ "" then some w else _first_value grouped "r"
          | none => _first_value grouped "r"
      let listing : PyDict :=
        [("id", pyOrV (pget row "event_id") (pget row "id")),
         ("title", .vstr title),
         ("summary", optStr summary),
         ("status", optStr status),
         ("location", optStr location),
         ("full_address", optStr full_address),
         ("geohash", optStr geohash_value),
         ("latitude", optQ latlon.1),
         ("longitude", optQ latlon.2),
         ("price", match price with
           | some p => .vdict p
           | none => .vnone),
         ("published_at", match published_at with
           | some t => .vdt t
           | none => .vnone),
         ("content", pget row "content"),
         ("images", .vlist ((_collect_images grouped).map PVal.vstr)),
         ("tags", .vlist ((_collect_keywords grouped).map PVal.vstr)),
         ("url", optStr url),
         ("identifier", optStr (_first_value grouped "d")),
         ("raw_tags", .vlist (tags.map (fun t => PVal.vlist (t.map PVal.vstr))))]
      some (listing.filter (fun kv =>
        !isNoneV kv.2 || decide (kv.1 ∈ (["content", "images", "tags", "raw_tags"] : List String))))

/-- `_finalize_listing_payload` (listings.py): drop `None`-valued keys
except `content`, `images`, `tags`, `raw_tags` and `summary`. -/
def _finalize_listing_payload (payload : PyDict) : PyDict :=
  payload.filter (fun kv =>
    !isNoneV kv.2
      || decide (kv.1 ∈ (["content", "images", "tags", "raw_tags", "summary"] : List String)))

/-- Decode a JSONB/Text column into a dict as the document parser does:
strings go through `jloads` (decode failure gives an empty dict), mappings
are taken as-is, anything else gives an empty dict.  (A JSON text decoding
to a non-dict would make the source raise on attribute access; such rows
are outside the model and give the empty dict here.) -/
def docDict (jloads : String → Option PVal) (raw : PVal) : PyDict :=
  match raw with
  | .vstr s =>
    match jloads s with
    | some (.vdict d) => d
    | _ => []
  | .vdict d => d
  | _ => []

/-- Python iteration over a categories source (`Iterable` that is not
`str`/`bytes`): list elements, or the keys of a dict. -/
def iterNonStr : PVal → List PVal
  | .vlist xs => xs
  | .vdict d => d.map (fun kv => PVal.vstr kv.1)
  | _ => []

/-- Order-preserving dedup of strings (`dict.fromkeys`). -/
def dedupStr : List String → List String → List String
  | _, [] => []
  | seen, x :: xs =>
    if x ∈ seen then dedupStr seen xs else x :: dedupStr (x :: seen) xs

/-- The first paragraph of a description: the part before the first
`"\n\n"`, the whole string when absent. -/
def beforeDoubleNewline : List Char → List Char
  | [] => []
  | c :: cs =>
    if c = '\n' then
      match cs with
      | c2 :: _ => if c2 = '\n' then [] else c :: beforeDoubleNewline cs
      | [] => [c]
    else c :: beforeDoubleNewline cs

/-- `_parse_classified_listing_row` (listings.py): the document parsing
path; requires the `classified_listing` type marker, a seller reference
(content preferred over metadata) and a non-blank string title, and
finalizes through `_finalize_listing_payload`. -/
def _parse_classified_listing_row (jloads : String → Option PVal) (row : PyDict) :
    Option (String × PyDict) :=
  let meta := docDict jloads (pget row "meta_data")
  let content := docDict jloads (pget row "content")
  let metaType :=
    match pget meta "type" with
    | .vnone =>
      match pget content "type" with
      | .vstr s => PVal.vstr s
      | _ => PVal.vnone
    | v => v
  if ¬ (PVal.beq metaType (.vstr "classified_listing") = true) then none
  else
    let sellerPubkey : Option String :=
      match pget content "seller" with
      | .vstr s => if strStrip s ≠ "" then some (strStrip s) else none
      | _ => none
    let sellerPubkey : Option String :=
      match sellerPubkey with
      | some s => some s
      | none =>
        match pget meta "seller" with
        | .vstr s => if strStrip s ≠ "" then some (strStrip s) else none
        | _ => none
    match sellerPubkey with
    | none => none
    | some seller_pubkey =>
      match pyOrV (pget content "title") (pget row "name") with
      | .vstr title =>
        if title = "" then none
        else
          let raw_summary := pget content "summary"
          let description := pget content "description"
          let summaryText : Option String :=
            match raw_summary with
            | .vstr s => some (if strStrip s ≠ "" then strStrip s else s)
            | .vnum q => some (pyStr (.vnum q))
            | .vbool b => some (pyStr (.vbool b))
            | _ => none
          let summaryText : Option String :=
            match summaryText with
            | some s => some s
            | none =>
              match description with
              | .vstr d =>
                let chunk := strStrip d
                if chunk ≠ "" then
                  let firstPara := strStrip (String.mk (beforeDoubleNewline chunk.toList))
                  some (if firstPara ≠ "" then firstPara else chunk)
                else none
              | _ => none
          let summaryText : Option String :=
            match summaryText with
            | some s => some s
            | none =>
              match pget meta "summary" with
              | .vstr s => some (if strStrip s ≠ "" then strStrip s else s)
              | _ => none
          let price : Option PyDict :=
            match pget content "price" with
            | .vdict priceData =>
              let amount := pget priceData "amount"
              let currency := pyOrV (pget priceData "currency") (pget meta "price_currency")
              let frequency := pget priceData "frequency"
              let numericAmount : Option ℚ :=
                match amount with
                | .vnum q => some q
                | .vbool b => some (if b then 1 else 0)
                | .vstr s => strToFloat s
                | _ => none
              let priceParts : PyDict :=
                (match numericAmount with
                  | some a => [("amount", PVal.vnum a)]
                  | none => [])
                ++ (match currency with
                  | .vstr c => if c ≠ "" then [("currency", PVal.vstr c)] else []
                  | _ => [])
                ++ (match frequency with
                  | .vstr f => if f ≠ "" then [("frequency", PVal.vstr f)] else []
                  | _ => [])
              if priceParts.isEmpty then none else some priceParts
            | _ => none
          let categories :=
            ((iterNonStr (pget content "categories")
                ++ iterNonStr (pget meta "categories")).filterMap
              (fun cat =>
                match cat with
                | .vstr c => if c ≠ "" then some c else none
                | _ => none))
          let categories := if categories.isEmpty then categories else dedupStr [] categories
          let rawImages : List PVal :=
            match pget content "images" with
            | .vlist entries => entries
            | .vdict d => d.map (fun kv => PVal.vstr kv.1)
            | _ => []
          let images : List String :=
            rawImages.filterMap
              (fun entry =>
                match entry with
                | .vdict e =>
                  match pget e "url" with
                  | .vstr u => if u ≠ "" then some u else none
                  | _ => none
                | _ => none)
          let identifier : Option String :=
            match pyOrV (pget content "id") (pget row "id") with
            | .vstr s => some (strStrip s)
            | _ => none
          let location : Option String :=
            match pyOrV (pget content "location") (pget meta "location") with
            | .vstr s => some s
            | _ => none
          let status : Option String :=
            match pyOrV (pget content "visibility") (pget meta "visibility") with
            | .vstr s => some s
            | _ => none
          let url : Option String :=
            match pget content "url" with
            | .vstr s => some s
            | _ => none
          let geohash_value := _extract_geohash content meta
          let latitude := _coerce_float (pyOrV (pget content "latitude") (pget meta "latitude"))
          let longitude := _coerce_float (pyOrV (pget content "longitude") (pget meta "longitude"))
          let latlon : Option ℚ × Option ℚ :=
            match geohash_value with
            | some g =>
              match decode_geohash g with
              | some decoded =>
                (match latitude with
                  | some v => some v
                  | none => some decoded.1,
                 match longitude with
                  | some v => some v
                  | none => some decoded.2)
              | none => (latitude, longitude)
            | none => (latitude, longitude)
          let listing := _finalize_listing_payload
            [("id", pyOrV (optStr identifier) (pget row "id")),
             ("title", .vstr title),
             ("summary", optStr summaryText),
             ("content", pyOrV description (optStr summaryText)),
             ("status", optStr status),
             ("location", optStr location),
             ("full_address", optStr location),
             ("geohash", optStr geohash_value),
             ("latitude", optQ latlon.1),
             ("longitude", optQ latlon.2),
             ("price", match price with
               | some p => .vdict p
               | none => .vnone),
             ("published_at", .vnone),
             ("images", .vlist (images.map PVal.vstr)),
             ("tags", .vlist (categories.map PVal.vstr)),
             ("url", optStr url),
             ("identifier", optStr identifier),
             ("raw_tags", .vlist (categories.map
               (fun cat => PVal.vlist [PVal.vstr "category", PVal.vstr cat])))]
          some (seller_pubkey, listing)
      | _ => none

/-! ### Key retention through listing finalization -/

theorem phasKey_filter_of (k : String) (f : String × PVal → Bool)
    (hf : ∀ v, f (k, v) = true) :
    ∀ p : PyDict, phasKey p k = true → phasKey (p.filter f) k = true := by
  intro p
  induction p with
  | nil => intro h; exact h
  | cons kv rest ih =>
    intro h
    rcases kv with ⟨k2, v⟩
    by_cases hk : k2 = k
    · subst hk
      rw [List.filter_cons, if_pos (by simpa using hf v)]
      simp [phasKey]
    · rw [List.filter_cons]
      have h' : k2 = k ∨ phasKey rest k = true := by simpa [phasKey] using h
      rcases h' with h1 | h2
      · exact absurd h1 hk
      · by_cases hfv : f (k2, v) = true
        · rw [if_pos hfv]
          have := ih h2
          simp only [phasKey, List.any_cons]
          simp [phasKey] at this
          simp [this]
        · rw [if_neg hfv]
          exact ih h2

theorem keepFilter_none_mem (keep : List String) (payload : PyDict) :
    ∀ kv ∈ payload.filter (fun kv => !isNoneV kv.2 || decide (kv.1 ∈ keep)),
      kv.2 = .vnone → kv.1 ∈ keep := by
  intro kv hkv hnone
  have := (List.mem_filter.mp hkv).2
  rw [hnone] at this
  simpa [isNoneV] using this

theorem tagged_path_props (jloads : String → Option PVal) (row p : PyDict)
    (hp : _parse_listing jloads row = some p) :
    (phasKey p "content" = true ∧ phasKey p "images" = true
      ∧ phasKey p "tags" = true ∧ phasKey p "raw_tags" = true)
      ∧ ∀ kv ∈ p, kv.2 = .vnone →
          kv.1 ∈ (["content", "images", "tags", "raw_tags"] : List String) := by
  simp only [_parse_listing] at hp
  split at hp
  · cases hp
  · split at hp
    · cases hp
    · simp only [Option.some.injEq] at hp
      subst hp
      refine ⟨⟨?_, ?_, ?_, ?_⟩, keepFilter_none_mem _ _⟩
      all_goals
        refine phasKey_filter_of _ _ (by intro v; simp) _ (by simp [phasKey])

set_option maxHeartbeats 1000000 in
theorem doc_path_props (jloads : String → Option PVal) (row : PyDict)
    (k : String) (listing : PyDict)
    (hp : _parse_classified_listing_row jloads row = some (k, listing)) :
    (phasKey listing "content" = true ∧ phasKey listing "images" = true
      ∧ phasKey listing "tags" = true ∧ phasKey listing "raw_tags" = true
      ∧ phasKey listing "summary" = true)
      ∧ ∀ kv ∈ listing, kv.2 = .vnone →
          kv.1 ∈ (["content", "images", "tags", "raw_tags", "summary"] : List String) := by
  simp only [_parse_classified_listing_row] at hp
  split at hp
  · cases hp
  · split at hp
    · cases hp
    · split at hp
      · split at hp
        · cases hp
        · simp only [Option.some.injEq, Prod.mk.injEq, _finalize_listing_payload] at hp
          rcases hp with ⟨hk, hl⟩
          subst hl
          refine ⟨⟨?_, ?_, ?_, ?_, ?_⟩, keepFilter_none_mem _ _⟩
          all_goals
            refine phasKey_filter_of _ _ (by intro v; simp) _ (by simp [phasKey])
      · cases hp

/-- C7 (amended): on the document path the finalized listing always
retains `content`, `images`, `tags`, `raw_tags` AND `summary`, and any
other `None`-valued key is dropped; on the tagged-event path the retained
keep-set is only `content`, `images`, `tags`, `raw_tags` — a `None`
summary is dropped there, contrary to the original claim. -/
theorem C7_finalization_keys :
    (∀ (jloads : String → Option PVal) (row p : PyDict),
        _parse_listing jloads row = some p →
          (phasKey p "content" = true ∧ phasKey p "images" = true
            ∧ phasKey p "tags" = true ∧ phasKey p "raw_tags" = true)
          ∧ ∀ kv ∈ p, kv.2 = .vnone →
              kv.1 ∈ (["content", "images", "tags", "raw_tags"] : List String))
    ∧ (∀ (jloads : String → Option PVal) (row : PyDict) (k : String) (listing : PyDict),
        _parse_classified_listing_row jloads row = some (k, listing) →
          (phasKey listing "content" = true ∧ phasKey listing "images" = true
            ∧ phasKey listing "tags" = true ∧ phasKey listing "raw_tags" = true
            ∧ phasKey listing "summary" = true)
          ∧ ∀ kv ∈ listing, kv.2 = .vnone →
              kv.1 ∈ (["content", "images", "tags", "raw_tags", "summary"] : List String)) :=
  ⟨tagged_path_props, doc_path_props⟩

/-- A tagged-event row with a title but no summary tag. -/
def c7tagrow : PyDict :=
  [("event_id", .vstr "e1"),
   ("tags", .vlist [.vlist [.vstr "title", .vstr "Garden Bench"]])]

/-- The parse of `c7tagrow`: no `summary` key survives finalization. -/
def c7tagparsed : PyDict :=
  [("id", .vstr "e1"), ("title", .vstr "Garden Bench"), ("content", .vnone),
   ("images", .vlist []), ("tags", .vlist []),
   ("raw_tags", .vlist [.vlist [.vstr "title", .vstr "Garden Bench"]])]

/-- C7 counterexample: a tagged-event row without a summary parses to a
listing with NO `summary` key — the tagged path's keep-set lacks
`summary`, refuting the claim that both paths always retain it. -/
theorem C7_counterexample_summary_dropped :
    _parse_listing (fun _ => none) c7tagrow = some c7tagparsed
      ∧ phasKey c7tagparsed "summary" = false :=
  ⟨rfl, rfl⟩

/-- A document row with only the type marker, a seller and a title. -/
def c7docrow : PyDict :=
  [("meta_data", .vdict [("type", .vstr "classified_listing"), ("seller", .vstr "npubx")]),
   ("content", .vdict [("title", .vstr "Bench")])]

/-- The parse of `c7docrow`: `summary` and `content` are retained with
`None` values. -/
def c7docparsed : PyDict :=
  [("title", .vstr "Bench"), ("summary", .vnone), ("content", .vnone),
   ("images", .vlist []), ("tags", .vlist []), ("raw_tags", .vlist [])]

/-- Witness for the amended C7 theorem on a concrete document row. -/
theorem C7_finalization_keys_witness :
    _parse_classified_listing_row (fun _ => none) c7docrow = some ("npubx", c7docparsed)
      ∧ ((phasKey c7docparsed "content" = true ∧ phasKey c7docparsed "images" = true
          ∧ phasKey c7docparsed "tags" = true ∧ phasKey c7docparsed "raw_tags" = true
          ∧ phasKey c7docparsed "summary" = true)
        ∧ ∀ kv ∈ c7docparsed, kv.2 = .vnone →
            kv.1 ∈ (["content", "images", "tags", "raw_tags", "summary"] : List String)) :=
  ⟨rfl, C7_finalization_keys.2 (fun _ => none) c7docrow "npubx" c7docparsed rfl⟩

/-! ### Listing Store (listings.py): dual tables and the availability flag -/

/-- Generic ordered-bucket append (`defaultdict(list)` indexing). -/
def dictAppend {β : Type _} (k : String) (v : β) :
    List (String × List β) → List (String × List β)
  | [] => [(k, [v])]
  | (k2, vs) :: rest =>
    if k2 = k then (k2, vs ++ [v]) :: rest else (k2, vs) :: dictAppend k v rest

/-- Lookup a bucket (empty when the key is absent), i.e. `map.get(key, [])`. -/
def dictGet {β : Type _} (m : List (String × List β)) (k : String) : List β :=
  match m.find? (fun kv => kv.1 = k) with
  | some kv => kv.2
  | none => []

/-- The outcome of one primary-table query: the distinguished missing-table
error (`UndefinedTableError` / SQLSTATE 42P01), another database error, or
success returning the given event rows (the full table; the embedding
applies the statement's WHERE clauses to them). -/
inductive PrimaryMode where
  | missingTable
  | otherError
  | rows (rs : List PyDict)

/-- The process environment of the Listing Store: whether
`settings.listings_table` is configured, the document-table rows, the
model of `json.loads` for Text columns, the model of the Postgres
`::text` rendering used in LIKE prefilters, and
`settings.listings_per_seller`. -/
structure ListingsEnv where
  listingsTableConfigured : Bool
  fallbackRows : List PyDict
  jloads : String → Option PVal
  renderText : PVal → String
  listingsPerSeller : Int

/-- `meta_data[field].astext` of a document row (string fields only, which
is all the source compares against). -/
def metaText (r : PyDict) (field : String) : Option String :=
  match pget r "meta_data" with
  | .vdict d =>
    match pget d field with
    | .vstr s => some s
    | _ => none
  | _ => none

/-- `_get_classified_listings_from_fallback` (listings.py): filter the
document table by the type marker and seller key, parse each row, and
index each listing under the seller key and its hex equivalent.  No
per-seller sorting or capping happens on this path. -/
def _get_classified_listings_from_fallback (env : ListingsEnv)
    (public_keys : List String) : List (String × List PyDict) :=
  if public_keys.isEmpty then []
  else
    let unique_keys := dedupStr [] public_keys
    if unique_keys.isEmpty then []
    else
      let rows := env.fallbackRows.filter (fun r =>
        decide (metaText r "type" = some "classified_listing")
          && (match metaText r "seller" with
            | some s => decide (s ∈ unique_keys)
            | none => false))
      rows.foldl
        (fun m r =>
          match _parse_classified_listing_row env.jloads r with
          | some (seller_pubkey, listing) =>
            let keysToStore := [seller_pubkey] ++
              (match _npub_to_hex seller_pubkey with
                | some h => [h]
                | none => [])
            keysToStore.foldl (fun m k => dictAppend k listing m) m
          | none => m)
        []

/-- The grouped dual-key map built from successfully parsed primary rows
(the success branch of `get_listings_by_public_keys`). -/
def buildPrimaryMap (jloads : String → Option PVal) (rows : List PyDict) :
    List (String × List PyDict) :=
  rows.foldl
    (fun m r =>
      match _parse_listing jloads r with
      | some listing =>
        match pget r "pubkey" with
        | .vstr key =>
          let targets := [key] ++
            (match _npub_to_hex key with
              | some h => [h]
              | none => [])
          targets.foldl (fun m k => dictAppend k listing m) m
        | _ => m
      | none => m)
    []

/-- The per-seller recency sort and cap applied to the primary map when
`listings_per_seller` is positive (`if max_items:` in the source). -/
def capPrimaryMap (listingsPerSeller : Int)
    (m : List (String × List PyDict)) : List (String × List PyDict) :=
  let max_items := max listingsPerSeller 0
  if max_items ≠ 0 then
    m.map (fun kv =>
      (kv.1, (pySort (fun x y => decide (pubOf y < pubOf x)) kv.2).take max_items.toNat))
  else m

/-- The primary-table WHERE clauses: `kind == 30402` and
`pubkey IN unique_keys`. -/
def primaryRowFilter (unique_keys : List String) (rs : List PyDict) : List PyDict :=
  rs.filter (fun r =>
    PVal.beq (pget r "kind") (.vnum 30402)
      && (match pget r "pubkey" with
        | .vstr s => decide (s ∈ unique_keys)
        | _ => false))

/-- `get_listings_by_public_keys` (listings.py), with the process-wide
`_LISTINGS_TABLE_AVAILABLE` flag threaded explicitly and the primary
query's outcome supplied by `primary`.  Returns the listings map and the
flag after the call. -/
def get_listings_by_public_keys (env : ListingsEnv) (primary : PrimaryMode)
    (flag : Bool) (public_keys : List String) :
    List (String × List PyDict) × Bool :=
  if public_keys.isEmpty then ([], flag)
  else
    let attemptPrimary := env.listingsTableConfigured && flag
    if attemptPrimary then
      let unique_keys := dedupStr [] public_keys
      if unique_keys.isEmpty then
        (_get_classified_listings_from_fallback env public_keys, flag)
      else
        match primary with
        | .missingTable =>
          -- `_disable_listings_table` + rollback, then the fallback return
          (_get_classified_listings_from_fallback env public_keys, false)
        | .otherError =>
          -- logged + rollback, then the fallback return
          (_get_classified_listings_from_fallback env public_keys, flag)
        | .rows rs =>
          let listings_map :=
            capPrimaryMap env.listingsPerSeller
              (buildPrimaryMap env.jloads (primaryRowFilter unique_keys rs))
          if listings_map.isEmpty then
            (_get_classified_listings_from_fallback env public_keys, flag)
          else (listings_map, flag)
    else (_get_classified_listings_from_fallback env public_keys, flag)

/-- Python slice `xs[:limit]` for a possibly negative limit. -/
def pySliceTo {α : Type _} (limit : Int) (xs : List α) : List α :=
  if 0 ≤ limit then xs.take limit.toNat
  else xs.take (xs.length - limit.natAbs)

/-- One text-search match: `pubkey`, the parsed listing and the score; the
fallback path also stores a (downstream-unused) `hex_pubkey` field. -/
structure TextMatch where
  pubkey : String
  listing : PyDict
  score : ℚ
  hex_pubkey : Option (Option String) := none
  normalized_pubkey : Option String := none

/-- `(score, published_at)` tuple comparison for match sorting. -/
def lexLtQI (a b : ℚ × Int) : Bool :=
  a.1 < b.1 || (a.1 = b.1 && a.2 < b.2)

/-- The sort key of a match: score then the listing's `published_at`
(epoch zero when absent). -/
def matchKey (m : TextMatch) : ℚ × Int := (m.score, pubOf m.listing)

/-- `created_at` of an event row as a number (integer column). -/
def createdOf (r : PyDict) : ℚ :=
  match pget r "created_at" with
  | .vnum x => x
  | _ => 0

/-- The LIKE prefilter of the primary text search: any of the raw query or
its tokens occurring in lower(content), lower(tags::text) or
lower(d::text); SQL NULL columns match nothing. -/
def primaryTextCond (env : ListingsEnv) (loweredQuery : String)
    (tokens : List String) (r : PyDict) : Bool :=
  let texts : List (Option String) :=
    [match pget r "content" with
      | .vstr s => some (strLower s)
      | _ => none,
     match pget r "tags" with
      | .vnone => none
      | v => some (strLower (env.renderText v)),
     match pget r "d" with
      | .vnone => none
      | v => some (strLower (env.renderText v))]
  (loweredQuery :: tokens).any (fun p =>
    texts.any (fun t =>
      match t with
      | some s => strHasSub s p
      | none => false))

/-- The scoring loop shared by both text-search paths over primary rows:
returns `(matchesL, fallback_entries)` in row order. -/
def scorePrimaryRows (jloads : String → Option PVal) (tokens : List String) :
    List PyDict → List TextMatch × List TextMatch
  | [] => ([], [])
  | r :: rest =>
    let (matchesL, fallbackEntries) := scorePrimaryRows jloads tokens rest
    match _parse_listing jloads r with
    | none => (matchesL, fallbackEntries)
    | some listing =>
      match pget r "pubkey" with
      | .vstr pk =>
        let entry : TextMatch := ⟨pk, listing, 0, none, none⟩
        if !tokens.isEmpty then
          let score := _listing_match_score listing tokens
          if score > 0 then
            (⟨pk, listing, (score : ℚ), none, none⟩ :: matchesL, entry :: fallbackEntries)
          else (matchesL, entry :: fallbackEntries)
        else (entry :: matchesL, entry :: fallbackEntries)
      | _ => (matchesL, fallbackEntries)

/-- The `name` sort key of the fallback text search (`ORDER BY name ASC`,
SQL NULLs last). -/
def nameAscBefore (a b : PyDict) : Bool :=
  match pget a "name", pget b "name" with
  | .vstr sa, .vstr sb => decide (sa < sb)
  | .vstr _, _ => true
  | _, _ => false

/-- `_search_classified_listings_fallback` (listings.py): LIKE-prefiltered
document rows ordered by name, 4x overfetch, in-memory re-scoring, the
zero-score fallback, the `(score, published_at)` descending sort and the
final truncation. -/
def _search_classified_listings_fallback (env : ListingsEnv) (query : String)
    (limit : Int) : List TextMatch :=
  let tokens := _tokenize_query (some query)
  let loweredQuery := strLower (strStrip query)
  let cond := fun (r : PyDict) =>
    let texts : List (Option String) :=
      [match pget r "name" with
        | .vstr s => some (strLower s)
        | _ => none,
       match pget r "content" with
        | .vstr s => some (strLower s)
        | _ => none]
    (loweredQuery :: tokens).any (fun p =>
      texts.any (fun t =>
        match t with
        | some s => strHasSub s p
        | none => false))
  let rows := env.fallbackRows.filter (fun r =>
    decide (metaText r "type" = some "classified_listing") && cond r)
  let rows := (pySort nameAscBefore rows).take ((max limit 1 * 4).toNat)
  let step := fun (r : PyDict) (acc : List TextMatch × List TextMatch) =>
    match _parse_classified_listing_row env.jloads r with
    | none => acc
    | some (seller_pubkey, listing) =>
      let entry : TextMatch := ⟨seller_pubkey, listing, 0, some (_npub_to_hex seller_pubkey), none⟩
      let fallbackEntries := entry :: acc.2
      if !tokens.isEmpty then
        let score := _listing_match_score listing tokens
        if score > 0 then
          (⟨seller_pubkey, listing, (score : ℚ), some (_npub_to_hex seller_pubkey), none⟩ :: acc.1,
            fallbackEntries)
        else (acc.1, fallbackEntries)
      else (entry :: acc.1, fallbackEntries)
  let pair := rows.foldr step ([], [])
  let matchesL := pair.1
  let fallbackEntries := pair.2
  let matchesL :=
    if !tokens.isEmpty && matchesL.isEmpty then
      fallbackEntries.map (fun e => ⟨e.pubkey, e.listing, 0, e.hex_pubkey, e.normalized_pubkey⟩)
    else matchesL
  let sorted := pySort (fun x y => lexLtQI (matchKey y) (matchKey x)) matchesL
  pySliceTo limit sorted

/-- `search_listings_by_text` (listings.py), flag threaded as in
`get_listings_by_public_keys`. -/
def search_listings_by_text (env : ListingsEnv) (primary : PrimaryMode)
    (flag : Bool) (query : Option String) (limit : Int) :
    List TextMatch × Bool :=
  match query with
  | none => ([], flag)
  | some q =>
    if q = "" || strStrip q = "" then ([], flag)
    else if env.listingsTableConfigured && flag then
      let tokens := _tokenize_query (some q)
      let loweredQuery := strLower (strStrip q)
      match primary with
      | .missingTable =>
        (_search_classified_listings_fallback env (strStrip q) limit, false)
      | .otherError =>
        (_search_classified_listings_fallback env (strStrip q) limit, flag)
      | .rows rs =>
        let filtered := rs.filter (fun r =>
          PVal.beq (pget r "kind") (.vnum 30402)
            && primaryTextCond env loweredQuery tokens r)
        let selected := (pySort (fun x y => decide (createdOf y < createdOf x)) filtered).take
          ((max limit 1 * 4).toNat)
        let pair := scorePrimaryRows env.jloads tokens selected
        let matchesL :=
          if !tokens.isEmpty && pair.1.isEmpty then
            pair.2.map (fun e => ⟨e.pubkey, e.listing, 0, e.hex_pubkey, e.normalized_pubkey⟩)
          else pair.1
        let sorted := pySort (fun x y => lexLtQI (matchKey y) (matchKey x)) matchesL
        if !sorted.isEmpty then (pySliceTo limit sorted, flag)
        else (_search_classified_listings_fallback env (strStrip q) limit, flag)
    else (_search_classified_listings_fallback env (strStrip q) limit, flag)

/-! ### The availability flag as a state machine (C4) -/

/-- One Listing Store call with its database outcome. -/
inductive StoreOp where
  | getByKeys (env : ListingsEnv) (primary : PrimaryMode) (keys : List String)
  | searchText (env : ListingsEnv) (primary : PrimaryMode) (query : Option String) (limit : Int)

/-- The `_LISTINGS_TABLE_AVAILABLE` flag after one call. -/
def storeStep (flag : Bool) : StoreOp → Bool
  | .getByKeys env primary keys => (get_listings_by_public_keys env primary flag keys).2
  | .searchText env primary q l => (search_listings_by_text env primary flag q l).2

/-- The flag after a sequence of calls in one process (initially true). -/
def flagAfter (ops : List StoreOp) : Bool := ops.foldl storeStep true

theorem storeStep_false (op : StoreOp) : storeStep false op = false := by
  cases op with
  | getByKeys env primary keys =>
    simp only [storeStep, get_listings_by_public_keys, Bool.and_false]
    split
    · rfl
    · simp
  | searchText env primary q l =>
    simp only [storeStep, search_listings_by_text]
    cases q with
    | none => rfl
    | some s =>
      simp only [Bool.and_false]
      split
      · rfl
      · simp

theorem foldl_storeStep_false (ops : List StoreOp) :
    ops.foldl storeStep false = false := by
  induction ops with
  | nil => rfl
  | cons op rest ih => rw [List.foldl_cons, storeStep_false]; exact ih

/-- C4: the primary-table availability flag is one-way — it never returns
to `true` once false; after it is false, both Listing Store operations are
independent of the primary table (they serve purely from the secondary
document table); and a missing-table error on an attempted primary query
flips the flag to false. -/
theorem C4_flag_one_way :
    (∀ op : StoreOp, storeStep false op = false)
    ∧ (∀ ops more : List StoreOp, flagAfter ops = false → flagAfter (ops ++ more) = false)
    ∧ (∀ (env : ListingsEnv) (p1 p2 : PrimaryMode) (keys : List String),
        get_listings_by_public_keys env p1 false keys
          = get_listings_by_public_keys env p2 false keys)
    ∧ (∀ (env : ListingsEnv) (p1 p2 : PrimaryMode) (q : Option String) (lim : Int),
        search_listings_by_text env p1 false q lim
          = search_listings_by_text env p2 false q lim)
    ∧ (∀ (env : ListingsEnv) (keys : List String),
        env.listingsTableConfigured = true → keys ≠ [] →
        (get_listings_by_public_keys env .missingTable true keys).2 = false) := by
  refine ⟨storeStep_false, ?_, ?_, ?_, ?_⟩
  · intro ops more h
    rw [flagAfter, List.foldl_append, ← flagAfter, h]
    exact foldl_storeStep_false more
  · intro env p1 p2 keys
    simp [get_listings_by_public_keys]
  · intro env p1 p2 q lim
    cases q with
    | none => rfl
    | some s => simp [search_listings_by_text]
  · intro env keys hcfg hne
    have hkeys : keys.isEmpty = false := by
      cases keys with
      | nil => exact absurd rfl hne
      | cons a as => rfl
    have hdedup : (dedupStr [] keys).isEmpty = false := by
      cases keys with
      | nil => exact absurd rfl hne
      | cons a as => simp [dedupStr]
    simp [get_listings_by_public_keys, hkeys, hcfg, hdedup]

/-- A concrete environment for the C4 witness. -/
def c4env : ListingsEnv := ⟨true, [], (fun _ => none), (fun _ => ""), 4⟩

/-- A concrete missing-table call for the C4 witness. -/
def c4op : StoreOp := .getByKeys c4env .missingTable ["k1"]

/-- Witness for C4 at a concrete operation sequence. -/
theorem C4_flag_one_way_witness :
    flagAfter [c4op] = false
      ∧ flagAfter ([c4op] ++ [c4op]) = false
      ∧ c4env.listingsTableConfigured = true
      ∧ (["k1"] : List String) ≠ []
      ∧ (get_listings_by_public_keys c4env .missingTable true ["k1"]).2 = false :=
  ⟨rfl, C4_flag_one_way.2.1 [c4op] [c4op] rfl, rfl, by simp,
    C4_flag_one_way.2.2.2.2 c4env ["k1"] rfl (by simp)⟩

/-! ### Per-seller sorting and capping (C6) -/

/-- A document-table row for seller `s1` with the given title. -/
def c6row (title : String) : PyDict :=
  [("meta_data", .vdict [("type", .vstr "classified_listing"), ("seller", .vstr "s1")]),
   ("content", .vdict [("title", .vstr title), ("id", .vstr title)])]

/-- An environment whose document table has five listings for seller
`s1`, with the default per-seller cap of 4. -/
def c6env : ListingsEnv :=
  ⟨true, [c6row "a", c6row "b", c6row "c", c6row "d", c6row "e"],
    (fun _ => none), (fun _ => ""), 4⟩

/-- C6 counterexample: when the primary table yields nothing the fallback
path serves the listings, and it neither sorts nor caps them — seller
`s1` gets 5 listings back although `listings_per_seller` is 4. -/
theorem C6_counterexample_fallback_uncapped :
    c6env.listingsPerSeller = 4
      ∧ (dictGet (get_listings_by_public_keys c6env (.rows []) true ["s1"]).1 "s1").length = 5
      ∧ ¬ ((5 : Nat) ≤ 4) :=
  ⟨rfl, rfl, by decide⟩

/-- C6 (amended): on the primary-table path, with a positive configured
cap, every returned bucket is sorted by `published_at` descending and has
at most `listings_per_seller` entries; and when the primary path produces
a non-empty map, `get_listings_by_public_keys` returns exactly that
sorted-and-capped map.  (The fallback path returns parse-order buckets
without sorting or capping — see the counterexample.) -/
theorem C6_amended_primary_sorted_capped :
    (∀ (m : Int) (pm : List (String × List PyDict)), 0 < m →
        ∀ kb ∈ capPrimaryMap m pm,
          kb.2.length ≤ m.toNat
            ∧ kb.2.Pairwise (fun a b => pubOf b ≤ pubOf a))
    ∧ (∀ (env : ListingsEnv) (rs : List PyDict) (keys : List String),
        env.listingsTableConfigured = true → keys ≠ [] →
        (capPrimaryMap env.listingsPerSeller
            (buildPrimaryMap env.jloads (primaryRowFilter (dedupStr [] keys) rs))).isEmpty = false →
        (get_listings_by_public_keys env (.rows rs) true keys).1
          = capPrimaryMap env.listingsPerSeller
              (buildPrimaryMap env.jloads (primaryRowFilter (dedupStr [] keys) rs))) := by
  constructor
  · intro m pm hm kb hkb
    simp only [capPrimaryMap, if_pos (show max m 0 ≠ 0 by omega)] at hkb
    rcases List.mem_map.mp hkb with ⟨kv, _, rfl⟩
    constructor
    · simp [List.length_take_le]
    · have hsorted := pySort_pairwise (fun x y => decide (pubOf y < pubOf x))
        (fun a b => pubOf b ≤ pubOf a) ?_ ?_ ?_ kv.2
      · exact hsorted.sublist (List.take_sublist _ _)
      · intro a b c hab hbc; omega
      · intro a b h; have := of_decide_eq_true h; omega
      · intro a b h; have := of_decide_eq_false h; omega
  · intro env rs keys hcfg hne hmap
    have hkeys : keys.isEmpty = false := by
      cases keys with
      | nil => exact absurd rfl hne
      | cons a as => rfl
    have hdedup : (dedupStr [] keys).isEmpty = false := by
      cases keys with
      | nil => exact absurd rfl hne
      | cons a as => simp [dedupStr]
    simp [get_listings_by_public_keys, hkeys, hcfg, hdedup, hmap]

/-- A simple primary map for the C6 witness. -/
def c6wpm : List (String × List PyDict) :=
  [("p", [[("id", PVal.vstr "l1"), ("published_at", PVal.vdt 10)],
          [("id", PVal.vstr "l2"), ("published_at", PVal.vdt 20)]])]

/-- A primary event row for the C6 witness. -/
def c6wrow : PyDict :=
  [("event_id", .vstr "w1"), ("pubkey", .vstr "p"), ("kind", .vnum 30402),
   ("created_at", .vnum 50),
   ("tags", .vlist [.vlist [.vstr "title", .vstr "Stool"]]),
   ("content", .vstr "A stool.")]

/-- An environment with a configured primary table for the C6 witness. -/
def c6wenv : ListingsEnv := ⟨true, [], (fun _ => none), (fun _ => ""), 4⟩

/-- Witness for the amended C6 theorem at concrete data. -/
theorem C6_amended_primary_sorted_capped_witness :
    ((0 : Int) < 4
      ∧ ∀ kb ∈ capPrimaryMap 4 c6wpm,
          kb.2.length ≤ (4 : Int).toNat
            ∧ kb.2.Pairwise (fun a b => pubOf b ≤ pubOf a))
    ∧ (c6wenv.listingsTableConfigured = true
      ∧ (["p"] : List String) ≠ []
      ∧ (capPrimaryMap c6wenv.listingsPerSeller
          (buildPrimaryMap c6wenv.jloads (primaryRowFilter (dedupStr [] ["p"]) [c6wrow]))).isEmpty = false
      ∧ (get_listings_by_public_keys c6wenv (.rows [c6wrow]) true ["p"]).1
          = capPrimaryMap c6wenv.listingsPerSeller
              (buildPrimaryMap c6wenv.jloads (primaryRowFilter (dedupStr [] ["p"]) [c6wrow]))) :=
  ⟨⟨by decide, C6_amended_primary_sorted_capped.1 4 c6wpm (by decide)⟩,
    rfl, by simp, rfl,
    C6_amended_primary_sorted_capped.2 c6wenv [c6wrow] ["p"] rfl (by simp) rfl⟩

/-! ### Seller search engine (sellers.py) -/

/-- The inner `has_demo_flag` of `_should_exclude_seller`: a literal
`hashtag_demo is True`, a case-insensitive `"demo"` hashtag, or
`environment == "demo"`. -/
def hasDemoFlagV (data : PVal) : Bool :=
  match data with
  | .vdict d =>
    if PVal.beq (pget d "hashtag_demo") (.vbool true) then true
    else
      let hashtagsHit :=
        match pget d "hashtags" with
        | .vlist tags => tags.any (fun tag =>
            match tag with
            | .vstr s => strLower s = "demo"
            | _ => false)
        | _ => false
      if hashtagsHit then true
      else
        match pget d "environment" with
        | .vstr s => strLower s = "demo"
        | _ => false
  | _ => false

/-- `_should_exclude_seller` (sellers.py) as it stands in the source: ONE
parameter, always the normal demo-exclusion polarity. -/
def _should_exclude_seller (seller : PyDict) : Bool :=
  hasDemoFlagV (pget seller "meta_data") || hasDemoFlagV (pget seller "filters")

/-- `_normalize_pubkeys` (sellers.py).  All call sites pass strings, so
the `isinstance(key, str)` guard never fires and the input is typed as
strings here. -/
def normalizePubkeysAux : List String → List String → List String
  | [], acc => acc
  | key :: rest, acc =>
    let candidate := strStrip key
    if candidate = "" then normalizePubkeysAux rest acc
    else
      let lower := strLower candidate
      let acc := if lower ∈ acc then acc else acc ++ [lower]
      let acc :=
        match _npub_to_hex candidate with
        | some h => if h ∈ acc then acc else acc ++ [h]
        | none => acc
      normalizePubkeysAux rest acc

/-- `_normalize_pubkeys` (sellers.py). -/
def _normalize_pubkeys (pubkeys : List String) : List String :=
  normalizePubkeysAux pubkeys []

/-- The 64-lowercase-hex test of `_select_canonical_key`. -/
def keyIsHex (k : String) : Bool :=
  decide (k.length = 64) && (strLower k).toList.all (fun c =>
    ('0' ≤ c && c ≤ '9') || ('a' ≤ c && c ≤ 'f'))

/-- `_select_canonical_key` (sellers.py): the first 64-hex key lowered,
else the first key lowered, else `None`. -/
def _select_canonical_key (keys : List String) : Option String :=
  match keys.find? keyIsHex with
  | some k => some (strLower k)
  | none =>
    match keys with
    | [] => none
    | k :: _ => some (strLower k)

/-- `_extract_seller_pubkeys` (sellers.py) on the metadata and content
column values of a seller row. -/
def _extract_seller_pubkeys (jloads : String → Option PVal) (meta contentRaw : PVal) :
    List String :=
  let candidates : List String :=
    (match meta with
      | .vdict d =>
        (match pget d "public_key" with
          | .vstr s => [s]
          | _ => [])
        ++ (match pget d "seller" with
          | .vstr s => [s]
          | _ => [])
      | _ => [])
  let content : Option PyDict :=
    match contentRaw with
    | .vdict d => some d
    | .vstr s =>
      match jloads s with
      | some (.vdict d) => some d
      | _ => none
    | _ => none
  let candidates := candidates ++
    (match content with
      | some d =>
        if d.isEmpty then []
        else
          (match pget d "public_key" with
            | .vstr s => [s]
            | _ => [])
          ++ (match pget d "seller" with
            | .vstr s => [s]
            | _ => [])
      | none => [])
  _normalize_pubkeys candidates

/-- A row of the sellers table as returned by a query (`dict(row)`), with
the optional `vector_distance` of the vector search. -/
structure SellerRow where
  rid : PVal
  name : PVal
  meta_data : PVal
  filters : PVal
  content : PVal
  vector_distance : Option PFloat := none

/-- A working seller record of `search_sellers` (the mutated row dict).
`none` in an optional field models both a missing key and a stored
`None`, which the source treats identically for these fields. -/
structure Seller where
  sid : PVal
  name : PVal
  meta_data : PVal
  filters : PVal
  content : PVal
  vector_distance : Option PFloat
  normalized_pubkeys : List String
  score : Option ℚ
  listings : List PyDict
  geo_distance_km : Option ℚ
  latitude : Option ℚ
  longitude : Option ℚ
  maps_url : Option String
  user_location : Option String
  user_coordinates : Option (ℚ × ℚ)

/-- The seller record freshly built from a row (before key extraction). -/
def sellerOfRow (r : SellerRow) (pubkeys : List String) : Seller :=
  ⟨r.rid, r.name, r.meta_data, r.filters, r.content, r.vector_distance,
    pubkeys, none, [], none, none, none, none, none, none⟩

/-- Python `==` on two seller dicts (all fields compared by value). -/
def sellerBeq (a b : Seller) : Bool :=
  PVal.beq a.sid b.sid && PVal.beq a.name b.name
    && PVal.beq a.meta_data b.meta_data && PVal.beq a.filters b.filters
    && PVal.beq a.content b.content
    && a.vector_distance == b.vector_distance
    && a.normalized_pubkeys == b.normalized_pubkeys
    && a.score == b.score
    && (a.listings.length = b.listings.length
        && (a.listings.zip b.listings).all (fun p => PVal.beq (.vdict p.1) (.vdict p.2)))
    && a.geo_distance_km == b.geo_distance_km
    && a.latitude == b.latitude && a.longitude == b.longitude
    && a.maps_url == b.maps_url && a.user_location == b.user_location
    && a.user_coordinates == b.user_coordinates

/-- Python dict assignment `m[k] = v`: replace in place, else append. -/
def dictSet {β : Type _} (k : String) (v : β) : List (String × β) → List (String × β)
  | [] => [(k, v)]
  | (k2, v2) :: rest => if k2 = k then (k2, v) :: rest else (k2, v2) :: dictSet k v rest

/-- Key membership of an assoc-list dict. -/
def dictHasKey {β : Type _} (m : List (String × β)) (k : String) : Bool :=
  m.any (fun kv => kv.1 = k)

/-- Lookup in an assoc-list dict. -/
def dictFind {β : Type _} (m : List (String × β)) (k : String) : Option β :=
  match m.find? (fun kv => kv.1 = k) with
  | some kv => some kv.2
  | none => none

/-- The environment of `search_sellers`: the Listing Store environment and
primary outcome, the vector-search result rows (ordered by cosine
distance, before the LIMIT), the sellers table, and the models of
`haversine_km` and `build_maps_url` (their float arithmetic is outside
the embedding). -/
structure SellersEnv where
  listingsEnv : ListingsEnv
  primary : PrimaryMode
  vectorRows : List SellerRow
  sellerRows : List SellerRow
  hav : ℚ → ℚ → ℚ → ℚ → ℚ
  mapsUrl : ℚ → ℚ → String

/-- The vector-candidate collection loop of `search_sellers`: demo
exclusion, key extraction, the pubkey→seller aliasing map (as indices
into the seller list) and the stop at `limit` survivors. -/
def vectorLoop (jloads : String → Option PVal) (limit : Int) :
    List SellerRow → List Seller → List (String × Nat) → List Seller × List (String × Nat)
  | [], sellers, m => (sellers, m)
  | r :: rest, sellers, m =>
    if _should_exclude_seller [("meta_data", r.meta_data), ("filters", r.filters)] then
      vectorLoop jloads limit rest sellers m
    else
      let pubkeys := _extract_seller_pubkeys jloads r.meta_data r.content
      let seller := sellerOfRow r pubkeys
      let idx := sellers.length
      let sellers := sellers ++ [seller]
      let m := pubkeys.foldl (fun m k => dictSet k idx m) m
      if (sellers.length : Int) ≥ limit then (sellers, m)
      else vectorLoop jloads limit rest sellers m

/-- `_fetch_sellers_by_public_keys` (sellers.py), returned as the distinct
seller objects in row order (the caller's `id()`-dedup over
`dict.values()`); rows that are demo-excluded or yield no keys are
skipped. -/
def _fetch_sellers_by_public_keys (env : SellersEnv) (public_keys : List String) :
    List Seller :=
  if public_keys.isEmpty then []
  else
    let unique_pubkeys := dedupStr [] (_normalize_pubkeys public_keys)
    if unique_pubkeys.isEmpty then []
    else
      let rows := env.sellerRows.filter (fun r =>
        match r.meta_data with
        | .vdict d =>
          match pget d "public_key" with
          | .vstr s => decide (s ∈ unique_pubkeys)
          | _ => false
        | _ => false)
      rows.foldr
        (fun r acc =>
          if _should_exclude_seller [("meta_data", r.meta_data), ("filters", r.filters)] then acc
          else
            let pubkeys := _extract_seller_pubkeys env.listingsEnv.jloads r.meta_data r.content
            if pubkeys.isEmpty then acc
            else sellerOfRow r pubkeys :: acc)
        []

/-- Seller copy with a new score. -/
def Seller.setScore (s : Seller) (q : Option ℚ) : Seller :=
  ⟨s.sid, s.name, s.meta_data, s.filters, s.content, s.vector_distance,
    s.normalized_pubkeys, q, s.listings, s.geo_distance_km, s.latitude,
    s.longitude, s.maps_url, s.user_location, s.user_coordinates⟩

/-- `x or float("inf")` on a vector distance: `None` and the falsy `0.0`
both coalesce to infinity — this is the Python `or`, not a null check. -/
def pyOrInf : Option PFloat → PFloat
  | none => .inf
  | some (.fin q) => if q = 0 then .inf else .fin q
  | some .inf => .inf

/-- `x or 0.0` on a score. -/
def pyOrZero : Option ℚ → ℚ
  | none => 0
  | some q => q

/-- The in-place merge of one seller into an already-merged record:
append unseen normalized keys, union listings deduped by truthy id, take
`min` of the `or`-coalesced vector distances and `max` of the
`or`-coalesced scores. -/
def mergeInto (existing seller : Seller) : Seller :=
  let newKeys := (seller.normalized_pubkeys.foldl
    (fun acc k => if k ∈ existing.normalized_pubkeys ++ acc then acc else acc ++ [k]) [])
  let keys := existing.normalized_pubkeys ++ newKeys
  let mergedListings := seller.listings.foldl
    (fun acc item =>
      let itemId := pget item "id"
      if truthy itemId
          ∧ acc.any (fun ex => truthy (pget ex "id") && PVal.beq (pget ex "id") itemId) then
        acc
      else acc ++ [item])
    existing.listings
  let vd := PFloat.min (pyOrInf existing.vector_distance) (pyOrInf seller.vector_distance)
  let sc := max (pyOrZero existing.score) (pyOrZero seller.score)
  ⟨existing.sid, existing.name, existing.meta_data, existing.filters, existing.content,
    some vd, keys, some sc, mergedListings, existing.geo_distance_km,
    existing.latitude, existing.longitude, existing.maps_url,
    existing.user_location, existing.user_coordinates⟩

/-- The merge key of a seller: its canonical key, else the stripped
lowercased id/name fallback; `none` means the seller is skipped. -/
def mergeKeyOf (seller : Seller) : Option String :=
  let canonical :=
    match _select_canonical_key seller.normalized_pubkeys with
    | some c => if c = "" then none else some c
    | none => none
  let canonical :=
    match canonical with
    | some c => some c
    | none =>
      match pyOrV seller.sid seller.name with
      | .vstr s => some (strLower (strStrip s))
      | _ => none
  match canonical with
  | some c => if c = "" then none else some c
  | none => none

/-- The grouping-by-canonical-key fold of the merge step. -/
def mergeFold : List Seller → List (String × Seller) → List (String × Seller)
  | [], merged => merged
  | seller :: rest, merged =>
    match mergeKeyOf seller with
    | none => mergeFold rest merged
    | some canonical_key =>
      match dictFind merged canonical_key with
      | some existing => mergeFold rest (dictSet canonical_key (mergeInto existing seller) merged)
      | none => mergeFold rest (dictSet canonical_key seller merged)

/-- Rebuild the pubkey→seller-index alias map from a seller list. -/
def rebuildPubkeyMap (sellers : List Seller) : List (String × Nat) :=
  (sellers.enum.foldl
    (fun m si => si.2.normalized_pubkeys.foldl (fun m k => dictSet k si.1 m) m) [])

/-- Apply one normalized text match: append its listing to the
`listings_map` bucket when the id is new, and raise the aliased seller's
score to the match score. -/
def applyMatch (listings_map : List (String × List PyDict))
    (seller_pubkey_map : List (String × Nat)) (sellers : List Seller)
    (m : TextMatch) : List (String × List PyDict) × List Seller :=
  let pubkey :=
    match m.normalized_pubkey with
    | some np => if np ≠ "" then np else m.pubkey
    | none => m.pubkey
  let listing := m.listing
  let bucket := dictGet listings_map pubkey
  let bucketHasListing := bucket.any (fun ex => PVal.beq (pget ex "id") (pget listing "id"))
  let listings_map :=
    if dictHasKey listings_map pubkey then
      if bucketHasListing then listings_map
      else dictSet pubkey (bucket ++ [listing]) listings_map
    else listings_map ++ [(pubkey, if bucketHasListing then [] else [listing])]
  let sellers :=
    match dictFind seller_pubkey_map pubkey with
    | some idx =>
      match sellers[idx]? with
      | some s =>
        sellers.set idx (s.setScore (some (max (pyOrZero s.score) m.score)))
      | none => sellers
    | none => sellers
  (listings_map, sellers)

/-- `isinstance(x, (int, float))` as a numeric view (`bool` included). -/
def numVal : PVal → Option ℚ
  | .vnum q => some q
  | .vbool b => some (if b then 1 else 0)
  | _ => none

/-- The listing union across a seller's normalized keys, deduped by
truthy listing id (first occurrence wins). -/
def collectSellerListings (listings_map : List (String × List PyDict))
    (seller : Seller) : List PyDict :=
  (seller.normalized_pubkeys.foldl
    (fun acc key =>
      (dictGet listings_map key).foldl
        (fun (acc : List PVal × List PyDict) item =>
          let itemId := pget item "id"
          if truthy itemId && acc.1.any (fun x => PVal.beq x itemId) then acc
          else ((if truthy itemId then acc.1 ++ [itemId] else acc.1), acc.2 ++ [item]))
        acc)
    (([], []) : List PVal × List PyDict)).2

/-- Seller copy with new listings. -/
def Seller.setListings (s : Seller) (ls : List PyDict) : Seller :=
  ⟨s.sid, s.name, s.meta_data, s.filters, s.content, s.vector_distance,
    s.normalized_pubkeys, s.score, ls, s.geo_distance_km, s.latitude,
    s.longitude, s.maps_url, s.user_location, s.user_coordinates⟩

/-- Seller copy with the nearest-listing geo annotation. -/
def Seller.setGeo (s : Seller) (d la lo : ℚ) (url : String) : Seller :=
  ⟨s.sid, s.name, s.meta_data, s.filters, s.content, s.vector_distance,
    s.normalized_pubkeys, s.score, s.listings, some d, some la,
    some lo, some url, s.user_location, s.user_coordinates⟩

/-- The per-listing geo annotation of the ranked-sellers loop: when user
coordinates are present, stamp each coordinate-bearing listing with its
haversine distance and maps link, tracking the nearest `(distance, lat,
lon)`. -/
def geoAnnotate (env : SellersEnv) (user_coordinates : Option (ℚ × ℚ))
    (ls : List PyDict) : List PyDict × Option (ℚ × ℚ × ℚ) :=
  match user_coordinates with
  | none => (ls, none)
  | some (ulat, ulon) =>
    ls.foldl
      (fun (acc : List PyDict × Option (ℚ × ℚ × ℚ)) listing =>
        match numVal (pget listing "latitude"), numVal (pget listing "longitude") with
        | some la, some lo =>
          let d := env.hav la lo ulat ulon
          let listing := dictSet "geo_distance_km" (PVal.vnum d) listing
          let listing := dictSet "maps_url" (PVal.vstr (env.mapsUrl la lo)) listing
          let mins :=
            match acc.2 with
            | none => some (d, la, lo)
            | some (mind, mla, mlo) =>
              if d < mind then some (d, la, lo) else some (mind, mla, mlo)
          (acc.1 ++ [listing], mins)
        | _, _ => (acc.1 ++ [listing], acc.2))
      ([], none)

/-- Stamp the nearest-listing geo data onto the seller (no-op when no
listing carried coordinates). -/
def applyGeo (env : SellersEnv) (s : Seller) : Option (ℚ × ℚ × ℚ) → Seller
  | some (mind, mla, mlo) => s.setGeo mind mla mlo (env.mapsUrl mla mlo)
  | none => s

/-- The best ranked-listing score a seller attains inside the ranked-sellers
loop (the `best_listing_score` intermediate of `search_sellers`). -/
def bestListingScore (env : SellersEnv) (listings_map : List (String × List PyDict))
    (query_text : Option String) (seller : Seller) : ℚ :=
  (filter_and_rank_listings (collectSellerListings listings_map seller)
    query_text env.listingsEnv.listingsPerSeller).2

/-- The body of the ranked-sellers loop of `search_sellers`: collect and
rank the seller's listings, annotate per-listing geo distance and maps
links, set the seller's own geo fields from its nearest listing, attach
the trimmed listings, and apply the score boost for sellers without a
vector distance.  (Geo annotation of a listing dict shared between
sellers is idempotent in the source, so per-seller functional copies give
the same final values.) -/
def processSeller (env : SellersEnv) (listings_map : List (String × List PyDict))
    (query_text : Option String) (user_coordinates : Option (ℚ × ℚ))
    (seller : Seller) : Seller :=
  let collected := collectSellerListings listings_map seller
  let ranked := filter_and_rank_listings collected query_text env.listingsEnv.listingsPerSeller
  let best_listing_score := ranked.2
  let geo := geoAnnotate env user_coordinates ranked.1
  let seller := applyGeo env seller geo.2
  let seller := seller.setListings geo.1
  if seller.vector_distance.isNone && decide (best_listing_score > 0) then
    let boosted_score : ℚ := min 1 ((2 : ℚ)/5 + (1 : ℚ)/5 * min best_listing_score 4)
    seller.setScore (some (max (pyOrZero seller.score) boosted_score))
  else seller

/-- The final ordering key of `search_sellers`: vector-distance sellers
first by boost-adjusted distance ascending, then the rest by score
descending. -/
def sellerSortKey (s : Seller) : Nat × PFloat :=
  match s.vector_distance with
  | some vd => (0, PFloat.sub vd (min (pyOrZero s.score) 1 * (1/10)))
  | none => (1, .fin (-(pyOrZero s.score)))

/-- Ascending comparison of seller sort keys (Python tuple `<`). -/
def sellerKeyLt (a b : Nat × PFloat) : Bool :=
  a.1 < b.1 || (a.1 = b.1 && PFloat.lt a.2 b.2)

/-- Stamp the caller's location data onto a seller that lacks its own. -/
def stampLocation (user_location : Option String)
    (user_coordinates : Option (ℚ × ℚ)) (s : Seller) : Seller :=
  let locFalsy :=
    match s.user_location with
    | none => true
    | some l => l = ""
  let newLoc :=
    match user_location with
    | some ul => if (!decide (ul = "")) && locFalsy then some ul else s.user_location
    | none => s.user_location
  let newCoords :=
    match user_coordinates with
    | some c => if s.user_coordinates = none then some c else s.user_coordinates
    | none => s.user_coordinates
  ⟨s.sid, s.name, s.meta_data, s.filters, s.content, s.vector_distance,
    s.normalized_pubkeys, s.score, s.listings, s.geo_distance_km, s.latitude,
    s.longitude, s.maps_url, newLoc, newCoords⟩

/-- The tail of `search_sellers` shared by both branches: the ranked-seller
loop, the final sort, the location stamping and the truncation. -/
def finishSellers (env : SellersEnv) (listings_map : List (String × List PyDict))
    (query_text : Option String) (user_coordinates : Option (ℚ × ℚ))
    (user_location : Option String) (limit : Int) (sellers : List Seller) :
    List Seller :=
  let ranked := sellers.map (processSeller env listings_map query_text user_coordinates)
  let ranked := pySort (fun x y => sellerKeyLt (sellerSortKey x) (sellerSortKey y)) ranked
  let locTruthy :=
    match user_location with
    | some ul => !decide (ul = "")
    | none => false
  let ranked :=
    if locTruthy || user_coordinates.isSome then
      ranked.map (stampLocation user_location user_coordinates)
    else ranked
  pySliceTo limit ranked

/-- `search_sellers` (sellers.py): vector candidates with demo filtering
and the stop at `limit` survivors, listing resolution, the text-search
branch with secondary seller discovery and the canonical-key merge, the
ranked-seller loop, final ordering and truncation.  The availability flag
is threaded through the Listing Store calls. -/
def search_sellers (env : SellersEnv) (flag : Bool) (limit : Int)
    (query_text : Option String) (user_coordinates : Option (ℚ × ℚ))
    (user_location : Option String) : List Seller × Bool :=
  let rows := env.vectorRows.take ((max (limit * 3) limit).toNat)
  let jl := env.listingsEnv.jloads
  let sm := vectorLoop jl limit rows [] []
  let sellers := sm.1
  let seller_pubkey_map := sm.2
  let public_keys := dedupStr [] (seller_pubkey_map.map (fun kv => kv.1))
  let gl := get_listings_by_public_keys env.listingsEnv env.primary flag public_keys
  let listings_map := gl.1
  let flag := gl.2
  let queryTruthy :=
    match query_text with
    | some q => !decide (q = "")
    | none => false
  if queryTruthy then
    let q := query_text.getD ""
    let lps := env.listingsEnv.listingsPerSeller
    let product_limit := max limit 1 * max (if lps = 0 then 1 else lps) 1
    let sl := search_listings_by_text env.listingsEnv env.primary flag (some q) product_limit
    let flag := sl.2
    let nm := sl.1.foldl
      (fun (acc : List TextMatch × List String) m =>
        let n := _normalize_pubkeys [m.pubkey]
        let candidate_keys := if n.isEmpty then [m.pubkey] else n
        let normalized_pubkey := candidate_keys.headD m.pubkey
        let m2 : TextMatch := ⟨m.pubkey, m.listing, m.score, m.hex_pubkey, some normalized_pubkey⟩
        let missing := candidate_keys.foldl
          (fun missing c =>
            if ¬ (dictHasKey seller_pubkey_map c = true) ∧ c ∉ missing then missing ++ [c]
            else missing)
          acc.2
        (acc.1 ++ [m2], missing))
      ([], [])
    let listing_matches := nm.1
    let missing_pubkeys := nm.2
    let esm :=
      if ¬ missing_pubkeys.isEmpty then
        (_fetch_sellers_by_public_keys env missing_pubkeys).foldl
          (fun (acc : List Seller × List (String × Nat)) seller =>
            let inList := acc.1.any (fun s2 => sellerBeq s2 seller)
            let idx :=
              if inList then acc.1.findIdx (fun s2 => sellerBeq s2 seller)
              else acc.1.length
            let sellers := if inList then acc.1 else acc.1 ++ [seller]
            let m := seller.normalized_pubkeys.foldl (fun m k => dictSet k idx m) acc.2
            (sellers, m))
          (sellers, seller_pubkey_map)
      else (sellers, seller_pubkey_map)
    let sellers := esm.1
    -- the seller_pubkey_map updated for the extra sellers (esm.2) is never
    -- read again in the source: it is rebuilt from scratch after the merge
    let allKeys := dedupStr [] (sellers.foldl (fun acc s => acc ++ s.normalized_pubkeys) [])
    let missing_listing_pubkeys := allKeys.filter (fun k => !(dictHasKey listings_map k))
    let gl2 :=
      if ¬ missing_listing_pubkeys.isEmpty then
        get_listings_by_public_keys env.listingsEnv env.primary flag missing_listing_pubkeys
      else ([], flag)
    let listings_map :=
      if ¬ missing_listing_pubkeys.isEmpty then
        gl2.1.foldl (fun m kv => dictSet kv.1 kv.2 m) listings_map
      else listings_map
    let flag := gl2.2
    let merged := mergeFold sellers []
    let sellers := merged.map (fun kv => kv.2)
    let seller_pubkey_map2 := rebuildPubkeyMap sellers
    let lm := listing_matches.foldl
      (fun (acc : List (String × List PyDict) × List Seller) m =>
        applyMatch acc.1 seller_pubkey_map2 acc.2 m)
      (listings_map, sellers)
    (finishSellers env lm.1 query_text user_coordinates user_location limit lm.2, flag)
  else
    (finishSellers env listings_map query_text user_coordinates user_location limit sellers,
      flag)

/-! ### C2: demo-profile exclusion has no demo-only inversion -/

/-- C2: `_should_exclude_seller` takes only the seller dict and always
excludes demo-signalling profiles — a true `hashtag_demo` flag, a
`"demo"` hashtag matched case-insensitively, or `environment == "demo"`,
in either the metadata or the filters map — while a production profile is
never excluded.  The function has no demo-only mode parameter, so the
polarity can never invert: the exclusion decision is a function of the
seller dict alone. -/
theorem C2_demo_exclusion_one_sided :
    _should_exclude_seller
        [("meta_data", .vdict [("hashtag_demo", .vbool true),
            ("environment", .vstr "production")])]
      = true
    ∧ _should_exclude_seller
        [("meta_data", .vdict [("hashtags", .vlist [.vstr "demo", .vstr "local", .vstr "business"]),
            ("environment", .vstr "production")])]
      = true
    ∧ _should_exclude_seller
        [("meta_data", .vdict [("hashtags", .vlist [.vstr "DEMO"])])]
      = true
    ∧ _should_exclude_seller
        [("meta_data", .vdict [("environment", .vstr "demo")])]
      = true
    ∧ _should_exclude_seller
        [("filters", .vdict [("hashtag_demo", .vbool true)])]
      = true
    ∧ _should_exclude_seller
        [("meta_data", .vdict [("hashtag_demo", .vbool false),
            ("environment", .vstr "production")])]
      = false :=
  ⟨rfl, rfl, rfl, rfl, rfl, rfl⟩

/-! ### C8: the merge's vector-distance minimum loses 0.0 distances -/

/-- A vector candidate at cosine distance exactly 0. -/
def c8row1 : SellerRow :=
  ⟨.vstr "s3", .vstr "C", .vdict [("public_key", .vstr "k1")], .vnone, .vnone,
    some (.fin 0)⟩

/-- A second vector candidate sharing the same public key, at distance 3. -/
def c8row2 : SellerRow :=
  ⟨.vstr "s4", .vstr "D", .vdict [("public_key", .vstr "k1")], .vnone, .vnone,
    some (.fin 3)⟩

/-- Environment for the C8 counterexample: both candidates share one
public key, the listing store is empty on both paths. -/
def c8env : SellersEnv :=
  ⟨⟨true, [], (fun _ => none), (fun _ => ""), 4⟩, .rows [], [c8row1, c8row2], [],
    (fun _ _ _ _ => 0), (fun _ _ => "")⟩

/-- C8 counterexample: two candidates sharing the key `k1`, one at vector
distance exactly 0 and one at 3, merge (under a truthy query) into a
single record whose stored vector distance is 3 — not the minimum 0 —
because `float(x or float("inf"))` coalesces the falsy distance 0.0 to
infinity before the `min`. -/
theorem C8_counterexample_zero_distance_lost :
    ((search_sellers c8env true 5 (some "zz") none none).1.map
        (fun s => s.vector_distance)) = [some (.fin 3)]
    ∧ ((search_sellers c8env true 5 (some "zz") none none).1.map
        (fun s => s.normalized_pubkeys)) = [["k1"]]
    ∧ ¬ ((3 : ℚ) = min 0 3) :=
  ⟨by with_unfolding_all rfl, by with_unfolding_all rfl, by norm_num⟩

/-- C8 amended: the merged record's vector distance is the minimum and its
score the maximum of the *`or`-coalesced* fields: `None` — and equally the
falsy distance `0.0` — coalesce to `float("inf")` before the minimum,
while any non-zero distance is kept as itself. -/
theorem C8_amended_merge_min_max (e s : Seller) (q : ℚ) (hq : q ≠ 0) :
    (mergeInto e s).vector_distance
        = some (PFloat.min (pyOrInf e.vector_distance) (pyOrInf s.vector_distance))
    ∧ (mergeInto e s).score = some (max (pyOrZero e.score) (pyOrZero s.score))
    ∧ pyOrInf none = PFloat.inf
    ∧ pyOrInf (some (PFloat.fin 0)) = PFloat.inf
    ∧ pyOrInf (some (PFloat.fin q)) = PFloat.fin q := by
  refine ⟨rfl, rfl, rfl, rfl, ?_⟩
  simp [pyOrInf, hq]

/-- Sellers for the C8 witness. -/
def c8wSellerA : Seller :=
  ⟨.vstr "s3", .vstr "C", .vnone, .vnone, .vnone, some (.fin 0), ["k1"],
    none, [], none, none, none, none, none, none⟩

def c8wSellerB : Seller :=
  ⟨.vstr "s4", .vstr "D", .vnone, .vnone, .vnone, some (.fin 3), ["k1"],
    none, [], none, none, none, none, none, none⟩

/-- Witness for C8: merging a distance-0 record with a distance-3 record
yields stored distance 3 (0 coalesced to infinity), score `max 0 0`. -/
theorem C8_amended_merge_min_max_witness :
    (mergeInto c8wSellerA c8wSellerB).vector_distance = some (PFloat.fin 3)
    ∧ (mergeInto c8wSellerA c8wSellerB).score = some 0
    ∧ pyOrInf (some (PFloat.fin (3 : ℚ))) = PFloat.fin 3 := by
  have h := C8_amended_merge_min_max c8wSellerA c8wSellerB 3 (by norm_num)
  refine ⟨?_, ?_, h.2.2.2.2⟩
  · rw [h.1]; rfl
  · rw [h.2.1]; rfl

/-! ### C9: the no-vector-distance score boost -/

/-- The geo stamping and listing attachment of the ranked-sellers loop
leave `score` and `vector_distance` untouched. -/
theorem applyGeo_setListings_fields (env : SellersEnv) (s : Seller)
    (g : Option (ℚ × ℚ × ℚ)) (t : List PyDict) :
    ((applyGeo env s g).setListings t).score = s.score
    ∧ ((applyGeo env s g).setListings t).vector_distance = s.vector_distance := by
  rcases g with _ | ⟨d, la, lo⟩ <;> exact ⟨rfl, rfl⟩

/-- C9: a seller with no vector distance whose ranked listings attain a
positive best score leaves the ranked-sellers loop with relevance score
`max(prior, min(1, 0.4 + 0.2·min(best, 4)))` — never below its prior
score — while a seller with a vector distance, or whose best listing
score is not positive, keeps its score unchanged. -/
theorem C9_listing_score_boost (env : SellersEnv)
    (lm : List (String × List PyDict)) (qt : Option String)
    (uc : Option (ℚ × ℚ)) (s : Seller) :
    (s.vector_distance = none → 0 < bestListingScore env lm qt s →
      (processSeller env lm qt uc s).score
        = some (max (pyOrZero s.score)
            (min 1 ((2 : ℚ)/5 + (1 : ℚ)/5 * min (bestListingScore env lm qt s) 4)))
      ∧ pyOrZero s.score ≤ pyOrZero (processSeller env lm qt uc s).score)
    ∧ (s.vector_distance ≠ none ∨ bestListingScore env lm qt s ≤ 0 →
      (processSeller env lm qt uc s).score = s.score) := by
  have hf := applyGeo_setListings_fields env s
    (geoAnnotate env uc (filter_and_rank_listings (collectSellerListings lm s)
        qt env.listingsEnv.listingsPerSeller).1).2
    (geoAnnotate env uc (filter_and_rank_listings (collectSellerListings lm s)
        qt env.listingsEnv.listingsPerSeller).1).1
  constructor
  · intro hvd hpos
    simp only [bestListingScore] at hpos
    simp only [processSeller, bestListingScore]
    rw [if_pos]
    · constructor
      · simp only [Seller.setScore, hf.1]
      · simp only [Seller.setScore, hf.1, pyOrZero, le_max_iff]
        exact Or.inl le_rfl
    · rw [hf.2, hvd]
      simp only [Option.isNone_none, Bool.true_and, decide_eq_true_eq]
      exact hpos
  · intro hno
    simp only [bestListingScore] at hno
    simp only [processSeller]
    rw [if_neg]
    · exact hf.1
    · rw [hf.2]
      rcases hno with hvd | hle
      · rcases h : s.vector_distance with _ | v
        · exact absurd h hvd
        · simp [h]
      · intro hc
        simp only [Bool.and_eq_true, decide_eq_true_eq] at hc
        exact absurd hc.2 (not_lt.mpr hle)

/-- Seller for the C9 witness: no vector distance, no prior score, one
pubkey whose listings bucket holds a single matching listing. -/
def c9seller : Seller :=
  ⟨.vstr "w1", .vstr "W", .vnone, .vnone, .vnone, none, ["k1"],
    none, [], none, none, none, none, none, none⟩

/-- Listings map for the C9 witness. -/
def c9lmap : List (String × List PyDict) :=
  [("k1", [[("id", .vstr "l1"), ("title", .vstr "maple syrup")]])]

/-- Environment for the C9 witness (cap 4, empty store otherwise). -/
def c9env : SellersEnv :=
  ⟨⟨true, [], (fun _ => none), (fun _ => ""), 4⟩, .rows [], [], [],
    (fun _ _ _ _ => 0), (fun _ _ => "")⟩

/-- Witness for C9: the query "maple" scores the witness listing 1, so the
seller's score is boosted to `min(1, 0.4 + 0.2·1) = 0.6`. -/
theorem C9_listing_score_boost_witness :
    bestListingScore c9env c9lmap (some "maple") c9seller = 1
    ∧ (processSeller c9env c9lmap (some "maple") none c9seller).score
        = some ((3 : ℚ)/5) := by
  have hb : bestListingScore c9env c9lmap (some "maple") c9seller = 1 := by
    with_unfolding_all rfl
  have h := (C9_listing_score_boost c9env c9lmap (some "maple") none c9seller).1
    rfl (by rw [hb]; norm_num)
  refine ⟨hb, ?_⟩
  rw [h.1, hb]
  have hs : c9seller.score = none := rfl
  rw [hs]
  norm_num [pyOrZero]

/-! ### C1: merging only happens under a truthy text query -/

/-- First vector candidate of the C1 counterexample. -/
def c1row1 : SellerRow :=
  ⟨.vstr "s1", .vstr "A", .vdict [("public_key", .vstr "k1")], .vnone, .vnone,
    some (.fin 1)⟩

/-- Second vector candidate sharing the same public key. -/
def c1row2 : SellerRow :=
  ⟨.vstr "s2", .vstr "B", .vdict [("public_key", .vstr "k1")], .vnone, .vnone,
    some (.fin 3)⟩

/-- Environment for the C1 counterexample. -/
def c1env : SellersEnv :=
  ⟨⟨true, [], (fun _ => none), (fun _ => ""), 4⟩, .rows [], [c1row1, c1row2], [],
    (fun _ _ _ _ => 0), (fun _ _ => "")⟩

/-- C1 counterexample: with no text query, `search_sellers` returns two
distinct seller records (ids `s1` and `s2`) whose `normalized_pubkeys`
both contain `k1` — intersecting key sets are *not* merged, because the
whole merge step sits inside the `if query_text:` branch. -/
theorem C1_counterexample_unmerged_without_query :
    ((search_sellers c1env true 5 none none none).1.map
        (fun s => s.normalized_pubkeys)) = [["k1"], ["k1"]]
    ∧ ((search_sellers c1env true 5 none none none).1.map
        (fun s => s.sid)) = [PVal.vstr "s1", PVal.vstr "s2"] :=
  ⟨by with_unfolding_all rfl, by with_unfolding_all rfl⟩

/-! ### Assoc-dict lemmas for the canonical-key merge invariant -/

theorem dictFind_mem {β : Type _} (m : List (String × β)) (k : String) (v : β)
    (h : dictFind m k = some v) : (k, v) ∈ m := by
  simp only [dictFind] at h
  rcases hf : m.find? (fun kv => kv.1 = k) with _ | kv
  · rw [hf] at h; exact absurd h (by simp)
  · rw [hf] at h
    have hp := List.find?_some hf
    have hm := List.mem_of_find?_eq_some hf
    have hk : kv.1 = k := by simpa using hp
    have hv : kv.2 = v := by simpa using h
    have : (k, v) = kv := by
      rcases kv with ⟨a, b⟩
      simp only at hk hv
      rw [hk, hv]
    rw [this]; exact hm

theorem dictFind_some_key_mem {β : Type _} (m : List (String × β)) (k : String) (v : β)
    (h : dictFind m k = some v) : k ∈ m.map Prod.fst := by
  exact List.mem_map.mpr ⟨(k, v), dictFind_mem m k v h, rfl⟩

theorem dictFind_none_key_not_mem {β : Type _} (m : List (String × β)) (k : String)
    (h : dictFind m k = none) : k ∉ m.map Prod.fst := by
  intro hk
  rcases List.mem_map.mp hk with ⟨p, hp, hfst⟩
  simp only [dictFind] at h
  rcases hf : m.find? (fun kv => kv.1 = k) with _ | kv
  · have := List.find?_eq_none.mp hf p hp
    simp [hfst] at this
  · rw [hf] at h; exact absurd h (by simp)

theorem mem_dictSet {β : Type _} (k : String) (v : β) :
    ∀ (m : List (String × β)), ∀ p ∈ dictSet k v m, p = (k, v) ∨ p ∈ m := by
  intro m
  induction m with
  | nil => intro p hp; simp only [dictSet] at hp; simp at hp; exact Or.inl hp
  | cons q rest ih =>
    intro p hp
    simp only [dictSet] at hp
    by_cases hq : q.1 = k
    · rw [if_pos hq] at hp
      rcases List.mem_cons.mp hp with h1 | h1
      · subst h1; exact Or.inl (by rw [hq])
      · exact Or.inr (List.mem_cons_of_mem _ h1)
    · rw [if_neg hq] at hp
      rcases List.mem_cons.mp hp with h1 | h1
      · exact Or.inr (by rw [h1]; exact List.mem_cons_self _ _)
      · rcases ih p h1 with h2 | h2
        · exact Or.inl h2
        · exact Or.inr (List.mem_cons_of_mem _ h2)

theorem dictSet_keys_mem {β : Type _} (k : String) (v : β) :
    ∀ (m : List (String × β)), k ∈ m.map Prod.fst →
      (dictSet k v m).map Prod.fst = m.map Prod.fst := by
  intro m
  induction m with
  | nil => intro h; simp at h
  | cons q rest ih =>
    intro h
    simp only [dictSet]
    by_cases hq : q.1 = k
    · rw [if_pos hq]; simp
    · rw [if_neg hq]
      simp only [List.map_cons]
      congr 1
      apply ih
      simp only [List.map_cons, List.mem_cons] at h
      rcases h with h | h
      · exact absurd h.symm hq
      · exact h

theorem dictSet_keys_new {β : Type _} (k : String) (v : β) :
    ∀ (m : List (String × β)), k ∉ m.map Prod.fst →
      (dictSet k v m).map Prod.fst = m.map Prod.fst ++ [k] := by
  intro m
  induction m with
  | nil => intro _; simp [dictSet]
  | cons q rest ih =>
    intro h
    simp only [List.map_cons, List.mem_cons] at h
    push_neg at h
    simp only [dictSet]
    rw [if_neg (fun hq => h.1 hq.symm)]
    simp only [List.map_cons, List.cons_append]
    congr 1
    exact ih h.2

/-! ### `find?` and the key-dedup fold of the merge -/

theorem find?_append_or {α : Type _} (p : α → Bool) :
    ∀ (xs ys : List α),
      (xs ++ ys).find? p = ((xs.find? p).orElse (fun _ => ys.find? p)) := by
  intro xs ys
  induction xs with
  | nil => simp [Option.orElse]
  | cons x xs ih =>
    simp only [List.cons_append, List.find?]
    by_cases hx : p x = true
    · simp [hx, Option.orElse]
    · simp only [Bool.not_eq_true] at hx
      simp [hx, ih]

/-- The mergeInto key-dedup fold preserves the first element satisfying a
predicate that holds nowhere in `base`: elements are only ever dropped
when already present in `base ++ acc`. -/
theorem dedupFold_find? (p : String → Bool) (base : List String)
    (hbase : ∀ b ∈ base, p b = false) :
    ∀ (l acc : List String),
      ((l.foldl (fun acc k => if k ∈ base ++ acc then acc else acc ++ [k]) acc).find? p)
        = ((acc.find? p).orElse (fun _ => l.find? p)) := by
  intro l
  induction l with
  | nil =>
    intro acc
    rcases h : acc.find? p with _ | y <;> rw [List.foldl_nil, h] <;> simp [Option.orElse]
  | cons x rest ih =>
    intro acc
    simp only [List.foldl_cons]
    by_cases hx : x ∈ base ++ acc
    · rw [if_pos hx]
      rw [ih acc]
      by_cases hpx : p x = true
      · have hxa : x ∈ acc := by
          rcases List.mem_append.mp hx with h1 | h1
          · exact absurd (hbase x h1) (by simp [hpx])
          · exact h1
        have hsome : (acc.find? p).isSome := by
          rw [List.find?_isSome]
          exact ⟨x, hxa, hpx⟩
        rcases ho : acc.find? p with _ | y
        · rw [ho] at hsome; simp at hsome
        · simp [Option.orElse]
      · simp only [Bool.not_eq_true] at hpx
        simp [List.find?, hpx]
    · rw [if_neg hx]
      rw [ih (acc ++ [x])]
      rw [find?_append_or p acc [x]]
      rcases ho : acc.find? p with _ | y
      · by_cases hpx : p x = true
        · simp [List.find?, hpx, Option.orElse]
        · simp only [Bool.not_eq_true] at hpx
          simp [List.find?, hpx, Option.orElse]
      · simp [Option.orElse]

/-- The key-dedup fold only appends, so a nonempty accumulator keeps its
head. -/
theorem dedupFold_head? (base : List String) :
    ∀ (l acc : List String), acc ≠ [] →
      ((l.foldl (fun acc k => if k ∈ base ++ acc then acc else acc ++ [k]) acc).head?)
        = acc.head? := by
  intro l
  induction l with
  | nil => intro acc _; rfl
  | cons x rest ih =>
    intro acc hacc
    simp only [List.foldl_cons]
    by_cases hx : x ∈ base ++ acc
    · rw [if_pos hx]; exact ih acc hacc
    · rw [if_neg hx]
      rw [ih (acc ++ [x]) (by simp)]
      rcases acc with _ | ⟨a, tl⟩
      · exact absurd rfl hacc
      · simp

/-- The same head-preservation fact for the empty-base form of the fold
(after `[] ++ acc` is collapsed to `acc`). -/
theorem dedupFold_head2? :
    ∀ (l acc : List String), acc ≠ [] →
      ((l.foldl (fun acc k => if k ∈ acc then acc else acc ++ [k]) acc).head?)
        = acc.head? := by
  intro l
  induction l with
  | nil => intro acc _; rfl
  | cons x rest ih =>
    intro acc hacc
    simp only [List.foldl_cons]
    by_cases hx : x ∈ acc
    · rw [if_pos hx]; exact ih acc hacc
    · rw [if_neg hx]
      rw [ih (acc ++ [x]) (by simp)]
      rcases acc with _ | ⟨a, tl⟩
      · exact absurd rfl hacc
      · simp

/-! ### String basics for the canonical key -/

theorem strLower_eq_empty {s : String} (h : strLower s = "") : s = "" := by
  rcases s with ⟨l⟩
  have h3 : l = [] := List.map_eq_nil_iff.mp (congrArg String.data h)
  rw [h3]

theorem keyIsHex_spec {x : String} (h : keyIsHex x = true) : x ≠ "" := by
  intro hx
  rw [hx] at h
  exact absurd h (by decide)

theorem strLower_of_hex_ne_empty {x : String} (h : keyIsHex x = true) :
    strLower x ≠ "" := by
  intro hl
  exact keyIsHex_spec h (strLower_eq_empty hl)

/-! ### The canonical merge key under `mergeInto` -/

theorem select_of_hex {keys : List String} {h : String}
    (hf : keys.find? keyIsHex = some h) :
    _select_canonical_key keys = some (strLower h) := by
  simp [_select_canonical_key, hf]

theorem select_cons_no_hex {c : String} {tl : List String}
    (hf : (c :: tl).find? keyIsHex = none) :
    _select_canonical_key (c :: tl) = some (strLower c) := by
  simp [_select_canonical_key, hf]

theorem mergeKeyOf_of_hex (x : Seller) {h : String}
    (hf : x.normalized_pubkeys.find? keyIsHex = some h) :
    mergeKeyOf x = some (strLower h) := by
  have hne : strLower h ≠ "" := strLower_of_hex_ne_empty (List.find?_some hf)
  simp [mergeKeyOf, select_of_hex hf, hne]

theorem mergeKeyOf_of_head (x : Seller) {c : String} {tl : List String}
    (hx : x.normalized_pubkeys = c :: tl)
    (hf : (c :: tl).find? keyIsHex = none) (hc : strLower c ≠ "") :
    mergeKeyOf x = some (strLower c) := by
  simp [mergeKeyOf, hx, select_cons_no_hex hf, hc]

theorem mergeKeyOf_fallback_eq (a b : Seller)
    (ha : _select_canonical_key a.normalized_pubkeys = none
        ∨ _select_canonical_key a.normalized_pubkeys = some "")
    (hb : _select_canonical_key b.normalized_pubkeys = none
        ∨ _select_canonical_key b.normalized_pubkeys = some "")
    (hsid : b.sid = a.sid) (hname : b.name = a.name) :
    mergeKeyOf b = mergeKeyOf a := by
  rcases ha with h | h <;> rcases hb with h2 | h2 <;>
    simp [mergeKeyOf, h, h2, hsid, hname]

/-- The canonical merge key is stable under `mergeInto`: when an incoming
record joins the record stored under the same key `k`, the merged record's
key is still `k`.  (The merged key list is the stored record's list with
the incoming record's unseen keys appended; the first hex key — or,
failing that, the head key or the id/name fallback — is preserved.) -/
theorem mergeKeyOf_mergeInto (e s : Seller) (k : String)
    (he : mergeKeyOf e = some k) (hs : mergeKeyOf s = some k) :
    mergeKeyOf (mergeInto e s) = some k := by
  have hpk : (mergeInto e s).normalized_pubkeys
      = e.normalized_pubkeys
        ++ s.normalized_pubkeys.foldl
            (fun acc x =>
              if x ∈ e.normalized_pubkeys ++ acc then acc else acc ++ [x]) [] := rfl
  have hsid : (mergeInto e s).sid = e.sid := rfl
  have hname : (mergeInto e s).name = e.name := rfl
  rcases hfe : e.normalized_pubkeys.find? keyIsHex with _ | h
  · -- no hex key among the stored record's keys
    have hnoE : ∀ b ∈ e.normalized_pubkeys, keyIsHex b = false := by
      intro b hb
      have := List.find?_eq_none.mp hfe b hb
      simpa using this
    have hfm : (mergeInto e s).normalized_pubkeys.find? keyIsHex
        = s.normalized_pubkeys.find? keyIsHex := by
      rw [hpk, find?_append_or, hfe,
        dedupFold_find? keyIsHex e.normalized_pubkeys hnoE s.normalized_pubkeys []]
      simp [Option.orElse]
    rcases hfs : s.normalized_pubkeys.find? keyIsHex with _ | h0
    · -- no hex key anywhere: head key or id/name fallback
      rw [hfs] at hfm
      rcases hE : e.normalized_pubkeys with _ | ⟨c, tl⟩
      · -- stored record had no keys at all: its key was the id/name fallback
        rcases hS : s.normalized_pubkeys with _ | ⟨c2, tl2⟩
        · -- incoming record had no keys either: merged key list is empty
          have hpk2 : (mergeInto e s).normalized_pubkeys = [] := by
            rw [hpk, hE, hS]
            rfl
          rw [← he]
          exact mergeKeyOf_fallback_eq e (mergeInto e s)
            (Or.inl (by rw [hE]; rfl))
            (Or.inl (by rw [hpk2]; rfl)) hsid hname
        · -- merged key list starts with the incoming head key
          have hhead : ((mergeInto e s).normalized_pubkeys).head? = some c2 := by
            rw [hpk, hE, hS]
            simp only [List.nil_append, List.foldl_cons]
            rw [if_neg (by simp)]
            rw [dedupFold_head2? tl2 [c2] (by simp)]
            rfl
          rcases hm : (mergeInto e s).normalized_pubkeys with _ | ⟨cm, tlm⟩
          · rw [hm] at hhead; exact absurd hhead (by simp)
          · rw [hm] at hhead
            have hcm : cm = c2 := by simpa using hhead
            subst hcm
            have hfm2 : (cm :: tlm).find? keyIsHex = none := by rw [← hm]; exact hfm
            by_cases hc2 : strLower cm = ""
            · -- falsy head key on both sides: both fall back to e's id/name
              rw [← he]
              refine mergeKeyOf_fallback_eq e (mergeInto e s)
                (Or.inl (by rw [hE]; rfl))
                (Or.inr ?_) hsid hname
              rw [hm, select_cons_no_hex hfm2, hc2]
            · -- the incoming head key is the key of both records
              have hks : mergeKeyOf s = some (strLower cm) := by
                refine mergeKeyOf_of_head s hS ?_ hc2
                rw [← hS, hfs]
              rw [hks] at hs
              rw [mergeKeyOf_of_head (mergeInto e s) hm hfm2 hc2]
              exact hs
      · -- stored record's head key decides, as it does for the merged list
        have hfc : (c :: tl).find? keyIsHex = none := by rw [← hE, hfe]
        have hm : (mergeInto e s).normalized_pubkeys
            = c :: (tl ++ s.normalized_pubkeys.foldl
                (fun acc x =>
                  if x ∈ e.normalized_pubkeys ++ acc then acc else acc ++ [x]) []) := by
          rw [hpk, hE]
          rfl
        have hfm2 : (c :: (tl ++ s.normalized_pubkeys.foldl
            (fun acc x =>
              if x ∈ e.normalized_pubkeys ++ acc then acc else acc ++ [x]) [])).find? keyIsHex
            = none := by
          rw [← hm]; exact hfm
        by_cases hc : strLower c = ""
        · -- falsy head key: both sides fall back to e's id/name
          rw [← he]
          refine mergeKeyOf_fallback_eq e (mergeInto e s)
            (Or.inr (by rw [hE, select_cons_no_hex hfc, hc]))
            (Or.inr (by rw [hm, select_cons_no_hex hfm2, hc])) hsid hname
        · have hke : mergeKeyOf e = some (strLower c) := mergeKeyOf_of_head e hE hfc hc
          rw [hke] at he
          rw [mergeKeyOf_of_head (mergeInto e s) hm hfm2 hc]
          exact he
    · -- the incoming record contributes the first hex key
      rw [hfs] at hfm
      have hks : mergeKeyOf s = some (strLower h0) := mergeKeyOf_of_hex s hfs
      rw [hks] at hs
      rw [mergeKeyOf_of_hex (mergeInto e s) hfm]
      exact hs
  · -- the stored record's first hex key survives the append
    have hfm : (mergeInto e s).normalized_pubkeys.find? keyIsHex = some h := by
      rw [hpk, find?_append_or, hfe]
      rfl
    have hke : mergeKeyOf e = some (strLower h) := mergeKeyOf_of_hex e hfe
    rw [hke] at he
    rw [mergeKeyOf_of_hex (mergeInto e s) hfm]
    exact he

/-! ### The merge fold keeps one record per canonical key -/

theorem mergeFold_cons_none (seller : Seller) (rest : List Seller)
    (merged : List (String × Seller)) (hk : mergeKeyOf seller = none) :
    mergeFold (seller :: rest) merged = mergeFold rest merged := by
  simp only [mergeFold, hk]

theorem mergeFold_cons_new (seller : Seller) (rest : List Seller)
    (merged : List (String × Seller)) (ck : String)
    (hk : mergeKeyOf seller = some ck) (hf : dictFind merged ck = none) :
    mergeFold (seller :: rest) merged
      = mergeFold rest (dictSet ck seller merged) := by
  simp only [mergeFold, hk, hf]

theorem mergeFold_cons_existing (seller : Seller) (rest : List Seller)
    (merged : List (String × Seller)) (ck : String) (existing : Seller)
    (hk : mergeKeyOf seller = some ck)
    (hf : dictFind merged ck = some existing) :
    mergeFold (seller :: rest) merged
      = mergeFold rest (dictSet ck (mergeInto existing seller) merged) := by
  simp only [mergeFold, hk, hf]

/-- Invariant of the grouping fold: every stored record's merge key is the
key it is stored under, and the stored keys are pairwise distinct. -/
theorem mergeFold_invariant :
    ∀ (sellers : List Seller) (merged : List (String × Seller)),
      (∀ p ∈ merged, mergeKeyOf p.2 = some p.1) →
      ((merged.map Prod.fst).Nodup) →
      ((∀ p ∈ mergeFold sellers merged, mergeKeyOf p.2 = some p.1)
        ∧ ((mergeFold sellers merged).map Prod.fst).Nodup) := by
  intro sellers
  induction sellers with
  | nil => intro merged h1 h2; exact ⟨h1, h2⟩
  | cons seller rest ih =>
    intro merged h1 h2
    rcases hk : mergeKeyOf seller with _ | ck
    · rw [mergeFold_cons_none seller rest merged hk]
      exact ih merged h1 h2
    · rcases hf : dictFind merged ck with _ | existing
      · -- new canonical key: append
        rw [mergeFold_cons_new seller rest merged ck hk hf]
        apply ih
        · intro p hp
          rcases mem_dictSet ck seller merged p hp with h3 | h3
          · rw [h3]; exact hk
          · exact h1 p h3
        · rw [dictSet_keys_new ck seller merged (dictFind_none_key_not_mem merged ck hf)]
          refine List.Nodup.append h2 (List.nodup_singleton ck) ?_
          intro a ha hb
          have hab : a = ck := List.mem_singleton.mp hb
          rw [hab] at ha
          exact dictFind_none_key_not_mem merged ck hf ha
      · -- existing record under the same key: merge in place
        rw [mergeFold_cons_existing seller rest merged ck existing hk hf]
        apply ih
        · intro p hp
          rcases mem_dictSet ck (mergeInto existing seller) merged p hp with h3 | h3
          · rw [h3]
            exact mergeKeyOf_mergeInto existing seller ck
              (h1 (ck, existing) (dictFind_mem merged ck existing hf)) hk
          · exact h1 p h3
        · rw [dictSet_keys_mem ck (mergeInto existing seller) merged
            (dictFind_some_key_mem merged ck existing hf)]
          exact h2

/-- The two key facts about the merged seller list (the values of the
grouping fold started from an empty dict): merge keys are pairwise
distinct and always present. -/
theorem mergedSnd_keys (sellers : List Seller) :
    ((((mergeFold sellers []).map (fun kv => kv.2)).map mergeKeyOf).Nodup)
    ∧ ∀ x ∈ (mergeFold sellers []).map (fun kv => kv.2),
        (mergeKeyOf x).isSome = true := by
  have hinv := mergeFold_invariant sellers []
    (by intro p hp; exact absurd hp (List.not_mem_nil p)) List.nodup_nil
  constructor
  · rw [List.map_map]
    have he : (mergeFold sellers []).map (mergeKeyOf ∘ fun kv => kv.2)
        = ((mergeFold sellers []).map Prod.fst).map some := by
      rw [List.map_map]
      apply List.map_congr_left
      intro p hp
      exact hinv.1 p hp
    rw [he]
    exact hinv.2.map (Option.some_injective _)
  · intro x hx
    rcases List.mem_map.mp hx with ⟨p, hp, hpx⟩
    rw [← hpx, hinv.1 p hp]
    rfl

/-! ### The merge keys survive the rest of the pipeline -/

theorem mergeKeyOf_congr (a b : Seller)
    (h1 : a.normalized_pubkeys = b.normalized_pubkeys)
    (h2 : a.sid = b.sid) (h3 : a.name = b.name) :
    mergeKeyOf a = mergeKeyOf b := by
  simp only [mergeKeyOf, h1, h2, h3]

theorem setScore_mergeKey (s : Seller) (q : Option ℚ) :
    mergeKeyOf (s.setScore q) = mergeKeyOf s := rfl

theorem stampLocation_mergeKey (ul : Option String) (uc : Option (ℚ × ℚ))
    (s : Seller) : mergeKeyOf (stampLocation ul uc s) = mergeKeyOf s := rfl

theorem processSeller_fields (env : SellersEnv)
    (lm : List (String × List PyDict)) (qt : Option String)
    (uc : Option (ℚ × ℚ)) (s : Seller) :
    (processSeller env lm qt uc s).normalized_pubkeys = s.normalized_pubkeys
    ∧ (processSeller env lm qt uc s).sid = s.sid
    ∧ (processSeller env lm qt uc s).name = s.name := by
  simp only [processSeller]
  rcases hg : (geoAnnotate env uc (filter_and_rank_listings (collectSellerListings lm s)
      qt env.listingsEnv.listingsPerSeller).1).2 with _ | ⟨d, la, lo⟩ <;>
    simp only [applyGeo] <;> split <;> exact ⟨rfl, rfl, rfl⟩

theorem processSeller_mergeKey (env : SellersEnv)
    (lm : List (String × List PyDict)) (qt : Option String)
    (uc : Option (ℚ × ℚ)) (s : Seller) :
    mergeKeyOf (processSeller env lm qt uc s) = mergeKeyOf s :=
  mergeKeyOf_congr _ _ (processSeller_fields env lm qt uc s).1
    (processSeller_fields env lm qt uc s).2.1 (processSeller_fields env lm qt uc s).2.2

theorem set_of_getElem? {α : Type _} :
    ∀ (l : List α) (i : Nat) (a : α), l[i]? = some a → l.set i a = l := by
  intro l
  induction l with
  | nil => intro i a h; simp at h
  | cons x xs ih =>
    intro i a h
    cases i with
    | zero =>
      simp only [List.getElem?_cons_zero, Option.some.injEq] at h
      rw [List.set_cons_zero, h]
    | succ n =>
      simp only [List.getElem?_cons_succ] at h
      rw [List.set_cons_succ, ih n a h]

theorem applyMatch_mergeKeys (lmap : List (String × List PyDict))
    (m : List (String × Nat)) (ss : List Seller) (tm : TextMatch) :
    ((applyMatch lmap m ss tm).2).map mergeKeyOf = ss.map mergeKeyOf := by
  simp only [applyMatch]
  split
  next idx heq1 =>
    split
    next s0 heq2 =>
      rw [List.map_set, setScore_mergeKey]
      exact set_of_getElem? (ss.map mergeKeyOf) idx (mergeKeyOf s0)
        (by rw [List.getElem?_map, heq2]; rfl)
    next heq2 => rfl
  next heq1 => rfl

theorem matchFold_mergeKeys (spm : List (String × Nat)) :
    ∀ (ms : List TextMatch) (acc : List (String × List PyDict) × List Seller),
      ((ms.foldl (fun acc mm => applyMatch acc.1 spm acc.2 mm) acc).2).map mergeKeyOf
        = acc.2.map mergeKeyOf := by
  intro ms
  induction ms with
  | nil => intro acc; rfl
  | cons mm rest ih =>
    intro acc
    simp only [List.foldl_cons]
    rw [ih (applyMatch acc.1 spm acc.2 mm)]
    exact applyMatch_mergeKeys acc.1 spm acc.2 mm

theorem pySliceTo_sublist {α : Type _} (n : Int) (xs : List α) :
    (pySliceTo n xs).Sublist xs := by
  simp only [pySliceTo]
  split <;> exact List.take_sublist _ _

/-- The ranked-sellers loop, the final sort, the location stamping and the
truncation neither create nor identify merge keys: distinctness and
presence of the keys carry from the seller list to the returned list. -/
theorem finishSellers_nodup (env : SellersEnv)
    (lm : List (String × List PyDict)) (qt : Option String)
    (uc : Option (ℚ × ℚ)) (ul : Option String) (limit : Int)
    (ss : List Seller)
    (h : ((ss.map mergeKeyOf).Nodup))
    (h2 : ∀ s ∈ ss, (mergeKeyOf s).isSome = true) :
    (((finishSellers env lm qt uc ul limit ss).map mergeKeyOf).Nodup)
    ∧ ∀ s ∈ finishSellers env lm qt uc ul limit ss,
        (mergeKeyOf s).isSome = true := by
  have hmap : ∀ (t : List Seller) (f : Seller → Seller),
      (∀ x, mergeKeyOf (f x) = mergeKeyOf x) →
      (t.map f).map mergeKeyOf = t.map mergeKeyOf := by
    intro t f hf
    rw [List.map_map]
    apply List.map_congr_left
    intro x _
    exact hf x
  have hranked : ((ss.map (processSeller env lm qt uc)).map mergeKeyOf)
      = ss.map mergeKeyOf :=
    hmap ss _ (fun x => processSeller_mergeKey env lm qt uc x)
  have hperm : (pySort (fun x y => sellerKeyLt (sellerSortKey x) (sellerSortKey y))
      (ss.map (processSeller env lm qt uc))).Perm (ss.map (processSeller env lm qt uc)) :=
    pySort_perm _ _
  have hsortkeys : ((pySort (fun x y => sellerKeyLt (sellerSortKey x) (sellerSortKey y))
      (ss.map (processSeller env lm qt uc))).map mergeKeyOf).Nodup := by
    rw [(hperm.map mergeKeyOf).nodup_iff, hranked]
    exact h
  have hsortmem : ∀ s ∈ pySort (fun x y => sellerKeyLt (sellerSortKey x) (sellerSortKey y))
      (ss.map (processSeller env lm qt uc)), (mergeKeyOf s).isSome = true := by
    intro s hs
    have hs2 := hperm.mem_iff.mp hs
    rcases List.mem_map.mp hs2 with ⟨x, hx, hxe⟩
    rw [← hxe, processSeller_mergeKey]
    exact h2 x hx
  have hstage : ∀ (t : List Seller), ((t.map mergeKeyOf).Nodup) →
      (∀ s ∈ t, (mergeKeyOf s).isSome = true) →
      (((pySliceTo limit t).map mergeKeyOf).Nodup)
      ∧ ∀ s ∈ pySliceTo limit t, (mergeKeyOf s).isSome = true := by
    intro t ht ht2
    constructor
    · exact List.Nodup.sublist (List.Sublist.map mergeKeyOf (pySliceTo_sublist limit t)) ht
    · intro s hs
      exact ht2 s (List.Sublist.subset (pySliceTo_sublist limit t) hs)
  simp only [finishSellers]
  by_cases hcond : ((match ul with | some u => !decide (u = "") | none => false)
      || uc.isSome) = true
  · rw [if_pos hcond]
    apply hstage
    · rw [hmap _ _ (fun x => stampLocation_mergeKey ul uc x)]
      exact hsortkeys
    · intro s hs
      rcases List.mem_map.mp hs with ⟨x, hx, hxe⟩
      rw [← hxe, stampLocation_mergeKey]
      exact hsortmem x hx
  · rw [if_neg hcond]
    exact hstage _ hsortkeys hsortmem

/-- C1 (amended): whenever a truthy text query is supplied, every seller
record returned by `search_sellers` has a canonical merge key (its first
hex normalized key, else its first normalized key, else its stripped
lowercased id/name), and no two returned records share that key — the
identity-merge guarantee holds keyed by the canonical key, and only on
the text-query path. -/
theorem C1_amended_distinct_canonical (env : SellersEnv) (flag : Bool)
    (limit : Int) (q : String) (uc : Option (ℚ × ℚ)) (ul : Option String)
    (hq : q ≠ "") :
    (((search_sellers env flag limit (some q) uc ul).1.map mergeKeyOf).Nodup)
    ∧ ∀ s ∈ (search_sellers env flag limit (some q) uc ul).1,
        (mergeKeyOf s).isSome = true := by
  simp only [search_sellers]
  have hq2 : decide (q = "") = false := by simp [hq]
  simp only [hq2, Bool.not_false, if_true]
  refine finishSellers_nodup env _ (some q) uc ul limit _ ?_ ?_
  · rw [matchFold_mergeKeys]
    exact (mergedSnd_keys _).1
  · intro s hs
    have h1 : mergeKeyOf s ∈ _ := List.mem_map_of_mem mergeKeyOf hs
    rw [matchFold_mergeKeys] at h1
    rcases List.mem_map.mp h1 with ⟨x, hx, hxe⟩
    rw [← hxe]
    exact (mergedSnd_keys _).2 x hx

/-- Witness for the amended C1 theorem at a concrete truthy query. -/
theorem C1_amended_distinct_canonical_witness :
    ("zz" : String) ≠ ""
    ∧ ((((search_sellers c1env true 5 (some "zz") none none).1.map mergeKeyOf).Nodup)
      ∧ ∀ s ∈ (search_sellers c1env true 5 (some "zz") none none).1,
          (mergeKeyOf s).isSome = true) :=
  ⟨by decide, C1_amended_distinct_canonical c1env true 5 "zz" none none (by decide)⟩

end Concierge
